import Mathlib

/-!
# Verification of the Via Stitcher candidate-generation and clearance engine

Shallow embedding of `via_stitcher.py` (com.americanembedded.via-stitcher).
All coordinates are integers in nanometers, as in the source.  Python's
floor division `//` is modelled by `Int.fdiv`; Python's `int(...)`
truncation toward zero on a real value is modelled by truncation of the
exact rational value (`ratTrunc`).  Python float arithmetic on small
integer data is exact, so the exact-arithmetic model agrees with the
source at every concrete input used below.  Where the source compares a
`math.sqrt` result against an integer bound, the comparison is modelled
exactly on squares (`sqrt d < m  ↔  0 < m ∧ d < m²` for `d ≥ 0`).
-/

namespace ViaStitcher

/-- A board point: integer nanometer coordinates, as in the source. -/
abbrev PointI := Int × Int

/-- Python `int(q)`: truncation toward zero of a rational value (the exact
value of the corresponding float expression). -/
def ratTrunc (q : ℚ) : ℤ :=
  q.num.tdiv q.den

/-- `point_in_polygon` (via_stitcher.py:145-158): ray casting with Python
floor division `//` (`Int.fdiv`).  State of the fold is `(inside, j)` with
`j` the index of the previous vertex, starting at `n - 1`. -/
def point_in_polygon (x y : Int) (polygon_pts : List PointI) : Bool :=
  if polygon_pts.length < 3 then false
  else
    ((List.range polygon_pts.length).foldl
      (fun (st : Bool × Nat) i =>
        let (inside, j) := st
        let (xi, yi) := polygon_pts.getD i (0, 0)
        let (xj, yj) := polygon_pts.getD j (0, 0)
        let inside :=
          if (decide (yi > y) != decide (yj > y))
              && decide (x < ((xj - xi) * (y - yi)).fdiv (yj - yi) + xi)
          then !inside else inside
        (inside, i))
      (false, polygon_pts.length - 1)).1

/-- `point_to_segment_distance_sq` (via_stitcher.py:161-172).  The Python
float `t = dot / length_sq` and the truncations `int(t * dx)`,
`int(t * dy)` are modelled over exact rationals. -/
def point_to_segment_distance_sq (px py x1 y1 x2 y2 : Int) : Int :=
  let dx := x2 - x1
  let dy := y2 - y1
  let length_sq := dx * dx + dy * dy
  if length_sq = 0 then (px - x1) ^ 2 + (py - y1) ^ 2
  else
    let t : ℚ := (((px - x1) * dx + (py - y1) * dy : Int) : ℚ) / (length_sq : ℚ)
    let t := max 0 (min 1 t)
    let closest_x := x1 + ratTrunc (t * (dx : ℚ))
    let closest_y := y1 + ratTrunc (t * (dy : ℚ))
    (px - closest_x) ^ 2 + (py - closest_y) ^ 2

/-- The closed walk of edges of a polygon: edge `i` joins vertex `i` to
vertex `(i+1) % n` (via_stitcher.py:181-183). -/
def polygon_edges (polygon_pts : List PointI) : List (PointI × PointI) :=
  (List.range polygon_pts.length).map
    (fun i => (polygon_pts.getD i (0, 0),
               polygon_pts.getD ((i + 1) % polygon_pts.length) (0, 0)))

/-- `distance_to_polygon_edge` (via_stitcher.py:175-186), kept in squared
form: `none` models the `float('inf')` returned for an empty polygon,
`some d` the squared minimum distance (the source returns `sqrt d`). -/
def distance_to_polygon_edge_sq (x y : Int) (polygon_pts : List PointI) :
    Option Int :=
  (polygon_edges polygon_pts).foldl
    (fun acc e =>
      let d := point_to_segment_distance_sq x y e.1.1 e.1.2 e.2.1 e.2.2
      match acc with
      | none => some d
      | some m => some (min m d))
    none

/-- The source comparison `distance_to_polygon_edge(x, y, poly) < bound`,
decided exactly on squares: `sqrt d < bound ↔ 0 < bound ∧ d < bound²`
(the distance is a square root, hence nonnegative, and `+∞ < bound` is
false). -/
def edge_dist_lt (x y : Int) (polygon_pts : List PointI) (bound : Int) : Bool :=
  match distance_to_polygon_edge_sq x y polygon_pts with
  | none => false
  | some d => decide (0 < bound) && decide (d < bound * bound)

/-- `from_mm(0.127)` in nanometers: the fixed same-net clearance constant
passed by both orchestrators (via_stitcher.py:1116, 1212). -/
def same_net_clearance_nm : Int := 127000

/-- Fueled model of the source's `while v <= maxv: ...; v += step` loops.
With `0 < step` and the fuel used below the fuel never runs out, so this
is exactly the loop; for `step ≤ 0` the Python loop diverges (or divides
by zero when snapping) and never returns, so any value is a sound model
of that branch. -/
def while_le_collect (step maxv : Int) : Nat → Int → List Int
  | 0, _ => []
  | fuel + 1, v => if v ≤ maxv then v :: while_le_collect step maxv fuel (v + step) else []

/-- Fuel that suffices for `while_le_collect` when `0 < step`. -/
def while_le_fuel (step maxv v : Int) : Nat :=
  (maxv - v).toNat / step.toNat + 1

/-- `generate_grid_positions` (via_stitcher.py:337-359).  `jit row col`
models the pair of `random.randint(-max_offset, max_offset)` draws for
the position in row `row`, column `col`; it is consumed only when
`config.random_offset` is set, and quantifying over all `jit` covers
every possible draw sequence. -/
def generate_grid_positions (min_x min_y max_x max_y : Int)
    (grid_spacing_nm : Int) (stagger_rows random_offset : Bool)
    (jit : Nat → Nat → Int × Int) : List PointI :=
  let spacing := grid_spacing_nm
  let start_x := ((min_x + spacing - 1).fdiv spacing) * spacing
  let start_y := ((min_y + spacing - 1).fdiv spacing) * spacing
  let ys := while_le_collect spacing max_y (while_le_fuel spacing max_y start_y) start_y
  ys.enum.flatMap (fun rowy =>
    let row := rowy.1
    let y := rowy.2
    let row_offset := if stagger_rows && decide (row % 2 = 1) then spacing.fdiv 2 else 0
    let x0 := start_x + row_offset
    let xs := while_le_collect spacing max_x (while_le_fuel spacing max_x x0) x0
    xs.enum.map (fun colx =>
      if random_offset then
        (colx.2 + (jit row colx.1).1, y + (jit row colx.1).2)
      else (colx.2, y)))

/-- `generate_fence_positions` (via_stitcher.py:362-391).  The float
`length = sqrt(dx²+dy²)` is modelled exactly: `length < spacing ↔
0 < spacing ∧ L < spacing²`, and `num_vias = int(length / spacing)`
equals `Nat.sqrt L / spacing` for positive spacing (zero for negative
spacing, where `range(num_vias)` is empty; for spacing = 0 the source
raises ZeroDivisionError and this model emits nothing). -/
def generate_fence_positions (polygon_pts : List PointI) (spacing_nm : Int) :
    List PointI :=
  if polygon_pts.length < 2 then []
  else
    (List.range polygon_pts.length).flatMap (fun i =>
      let p1 := polygon_pts.getD i (0, 0)
      let p2 := polygon_pts.getD ((i + 1) % polygon_pts.length) (0, 0)
      let dx := p2.1 - p1.1
      let dy := p2.2 - p1.2
      let length_sq := dx * dx + dy * dy
      if 0 < spacing_nm ∧ length_sq < spacing_nm * spacing_nm then
        [((p1.1 + p2.1).fdiv 2, (p1.2 + p2.2).fdiv 2)]
      else
        let num_vias : Nat :=
          if 0 < spacing_nm then Nat.sqrt length_sq.toNat / spacing_nm.toNat else 0
        (List.range num_vias).map (fun j =>
          let t : ℚ := ((j : ℚ) + 1 / 2) / (num_vias : ℚ)
          (ratTrunc ((p1.1 : ℚ) + t * (dx : ℚ)),
           ratTrunc ((p1.2 : ℚ) + t * (dy : ℚ)))))

/-- `points_close` (via_stitcher.py:447-448), tolerance `from_mm(0.01)`. -/
def points_close (p1 p2 : PointI) : Bool :=
  decide ((p1.1 - p2.1).natAbs < 10000) && decide ((p1.2 - p2.2).natAbs < 10000)

/-- One candidate-merge step of the chaining loop (via_stitcher.py:462-483),
instrumented: each working path carries the list of input-segment indices
it has consumed, which the source implicitly tracks through `used`. -/
def chain_merge_step (segments : List (List PointI))
    (st : (List PointI × List Nat) × List Bool × Bool) (j : Nat) :
    (List PointI × List Nat) × List Bool × Bool :=
  let path := st.1.1
  let idxs := st.1.2
  let used := st.2.1
  if used.getD j true then st
  else
    let other := segments.getD j []
    let oFirst := other.headD (0, 0)
    let oLast := other.getLastD (0, 0)
    let pFirst := path.headD (0, 0)
    let pLast := path.getLastD (0, 0)
    if points_close oLast pFirst then
      ((other.dropLast ++ path, j :: idxs), used.set j true, true)
    else if points_close oFirst pFirst then
      (((other.drop 1).reverse ++ path, j :: idxs), used.set j true, true)
    else if points_close oFirst pLast then
      ((path ++ other.drop 1, j :: idxs), used.set j true, true)
    else if points_close oLast pLast then
      ((path ++ other.dropLast.reverse, j :: idxs), used.set j true, true)
    else st

/-- One full `for j` pass of the `while changed` loop (via_stitcher.py:460-483). -/
def chain_pass (segments : List (List PointI))
    (path : List PointI × List Nat) (used : List Bool) :
    (List PointI × List Nat) × List Bool × Bool :=
  (List.range segments.length).foldl (chain_merge_step segments) (path, used, false)

/-- The `while changed` loop (via_stitcher.py:459-483).  Every pass that
reports a change marks at least one previously unused segment, so
`segments.length` passes of fuel are enough for the loop to reach its
fixed point, exactly as in the source. -/
def chain_extend (segments : List (List PointI)) :
    Nat → (List PointI × List Nat) → List Bool → (List PointI × List Nat) × List Bool
  | 0, path, used => (path, used)
  | fuel + 1, path, used =>
    let st := chain_pass segments path used
    if st.2.2 then chain_extend segments fuel st.1 st.2.1 else (st.1, st.2.1)

/-- One iteration of the outer `for i, seg in enumerate(segments)` loop
(via_stitcher.py:450-485): skip used segments, else grow a new path. -/
def chain_outer_step (segments : List (List PointI))
    (st : List (List PointI × List Nat) × List Bool) (i : Nat) :
    List (List PointI × List Nat) × List Bool :=
  if st.2.getD i true then st
  else
    let r := chain_extend segments segments.length
      (segments.getD i [], [i]) (st.2.set i true)
    (st.1 ++ [r.1], r.2)

/-- The greedy chaining loop of `chain_tracks_into_paths`
(via_stitcher.py:444-487), on the segment polylines produced by the
preceding arc sampling.  Instrumented with the consumed indices. -/
def chain_core (segments : List (List PointI)) :
    List (List PointI × List Nat) :=
  ((List.range segments.length).foldl (chain_outer_step segments)
    ([], List.replicate segments.length false)).1

/-- The chaining loop of `chain_tracks_into_paths` (via_stitcher.py:444-487):
the returned paths, with the index instrumentation erased. -/
def chain_segments_into_paths (segments : List (List PointI)) :
    List (List PointI) :=
  (chain_core segments).map (fun p => p.1)

/-- One entry of `BoardData.tracks` (via_stitcher.py:789, 820-832):
`(start_x, start_y, end_x, end_y, width, net_name, layer_name, is_arc,
mid_x, mid_y)`. -/
structure TrackData where
  start_x : Int
  start_y : Int
  end_x : Int
  end_y : Int
  width : Int
  net : String
  layer : String
  is_arc : Bool
  mid_x : Int
  mid_y : Int
deriving DecidableEq

/-- One entry of `BoardData.pads` (via_stitcher.py:791, 852-856):
`(x, y, half_w, half_h, net_name)`, the half extents already maximised
over the pad's copper layers by the extraction collaborator. -/
structure PadData where
  x : Int
  y : Int
  half_w : Int
  half_h : Int
  net : String
deriving DecidableEq

/-- One entry of `BoardData.vias` (via_stitcher.py:793, 863-868):
`(x, y, radius, net_name)`. -/
structure ViaData where
  x : Int
  y : Int
  radius : Int
  net : String
deriving DecidableEq

/-- `BoardData` (via_stitcher.py:786-901): the picklable board snapshot. -/
structure BoardData where
  tracks : List TrackData
  pads : List PadData
  vias : List ViaData
  zone_polygons : List (String × List PointI)
  board_outline : List PointI
  copper_layers : List String
deriving DecidableEq

/-- Python's `'UNKNOWN' in layer_name` substring test. -/
def str_contains (s pat : String) : Bool :=
  (s.splitOn pat).length > 1

/-- Whether one pad rejects the candidate (the body of the pad loop,
via_stitcher.py:937-954). -/
def pad_rejects (x y via_radius clearance : Int) (target_nets : List String)
    (p : PadData) : Bool :=
  let dx_abs := |x - p.x|
  let dy_abs := |y - p.y|
  let max_check_dist := via_radius + clearance + p.half_w + p.half_h
  if dx_abs > max_check_dist ∨ dy_abs > max_check_dist then false
  else
    let is_mounting_hole := p.half_w > 2500000 ∨ p.half_h > 2500000
    let req_clearance :=
      if p.net ∈ target_nets ∧ ¬is_mounting_hole then clearance.fdiv 2 else clearance
    decide (dx_abs < via_radius + p.half_w + req_clearance ∧
            dy_abs < via_radius + p.half_h + req_clearance)

/-- Whether one existing via rejects the candidate (the body of the via
loop, via_stitcher.py:957-965), including the coarse
`via_radius + clearance + from_mm(1.5)` bounding pre-filter. -/
def via_rejects (x y via_radius clearance same_net_clearance : Int)
    (target_nets : List String) (v : ViaData) : Bool :=
  let max_check_dist := via_radius + clearance + 1500000
  let dx := x - v.x
  let dy := y - v.y
  if |dx| > max_check_dist ∨ |dy| > max_check_dist then false
  else
    let min_dist := via_radius + v.radius +
      (if v.net ∈ target_nets then same_net_clearance else clearance)
    decide (dx * dx + dy * dy < min_dist * min_dist)

/-- Rejection of the candidate by one track (the body of the track loop,
via_stitcher.py:968-1007): layer filter, bounding-box filter, then true
segment distance (or the three arc sample points). -/
def track_rejection (x y via_radius clearance same_net_clearance : Int)
    (target_nets copper_layers : List String) (t : TrackData) :
    Option String :=
  if t.layer ∉ copper_layers ∧ ¬str_contains t.layer "UNKNOWN" then none
  else
    let max_check_dist := via_radius + clearance + 1000000
    let min_tx := if t.is_arc then min (min t.start_x t.mid_x) t.end_x
                  else min t.start_x t.end_x
    let max_tx := if t.is_arc then max (max t.start_x t.mid_x) t.end_x
                  else max t.start_x t.end_x
    let min_ty := if t.is_arc then min (min t.start_y t.mid_y) t.end_y
                  else min t.start_y t.end_y
    let max_ty := if t.is_arc then max (max t.start_y t.mid_y) t.end_y
                  else max t.start_y t.end_y
    if x < min_tx - max_check_dist ∨ x > max_tx + max_check_dist then none
    else if y < min_ty - max_check_dist ∨ y > max_ty + max_check_dist then none
    else
      let track_width_half := t.width.fdiv 2
      let req_clearance :=
        if t.net ∈ target_nets then same_net_clearance else clearance
      let min_dist := via_radius + track_width_half + req_clearance
      if t.is_arc then
        if [(t.start_x, t.start_y), (t.mid_x, t.mid_y), (t.end_x, t.end_y)].any
            (fun p => decide ((x - p.1) * (x - p.1) + (y - p.2) * (y - p.2) <
                              min_dist * min_dist))
        then some "arc" else none
      else
        if point_to_segment_distance_sq x y t.start_x t.start_y t.end_x t.end_y <
            min_dist * min_dist
        then some "track" else none

/-- Rejection by one rule area (the body of the rule-area loop,
via_stitcher.py:1012-1025): only zone polygons with an empty net name are
hard obstacles. -/
def rule_area_rejects (x y via_radius : Int) (zp : String × List PointI) : Bool :=
  if zp.1 ≠ "" then false
  else if zp.2.length < 3 then false
  else if point_in_polygon x y zp.2 then true
  else edge_dist_lt x y zp.2 via_radius

/-- `check_position_parallel` (via_stitcher.py:905-1030): the sequential
per-candidate clearance validator, returning
`(x, y, is_valid, rejection_reason)`.  `polygon_pts = none` models the
Python `None`; `Option.getD [] ` conflates `None` with an empty list,
exactly matching Python truthiness in `if not is_fence_mode and
polygon_pts`. -/
def check_position_parallel (x y via_radius : Int) (target_nets : List String)
    (clearance same_net_clearance boundary_clearance : Int)
    (board_data : BoardData) (is_fence_mode : Bool)
    (polygon_pts : Option (List PointI)) : Int × Int × Bool × String :=
  if board_data.board_outline ≠ [] ∧
      ¬point_in_polygon x y board_data.board_outline then
    (x, y, false, "outside_board")
  else if board_data.board_outline ≠ [] ∧
      edge_dist_lt x y board_data.board_outline (boundary_clearance + via_radius) then
    (x, y, false, "board_edge")
  else if ¬is_fence_mode ∧ (polygon_pts.getD []) ≠ [] ∧
      edge_dist_lt x y (polygon_pts.getD []) (boundary_clearance + via_radius) then
    (x, y, false, "zone_edge")
  else if board_data.pads.any (pad_rejects x y via_radius clearance target_nets) then
    (x, y, false, "pad")
  else if board_data.vias.any
      (via_rejects x y via_radius clearance same_net_clearance target_nets) then
    (x, y, false, "via")
  else
    match board_data.tracks.findSome?
        (track_rejection x y via_radius clearance same_net_clearance
          target_nets board_data.copper_layers) with
    | some reason => (x, y, false, reason)
    | none =>
      if board_data.zone_polygons.any (rule_area_rejects x y via_radius) then
        (x, y, false, "rule_area")
      else (x, y, true, "")

/-- `check_positions_batch` (via_stitcher.py:1033-1076): the sequential
map of `check_position_parallel` over the candidate list (progress
callbacks are UI-only and not modelled). -/
def check_positions_batch (positions : List PointI) (via_radius : Int)
    (target_nets : List String) (clearance same_net_clearance : Int)
    (boundary_clearance : Int) (board_data : BoardData)
    (is_fence_mode : Bool) (polygon_pts : Option (List PointI)) :
    List (Int × Int × Bool × String) :=
  positions.map (fun p =>
    check_position_parallel p.1 p.2 via_radius target_nets clearance
      same_net_clearance boundary_clearance board_data is_fence_mode polygon_pts)

/-! ## Float-based geometry, modelled over ℝ

`chain_tracks_into_paths` arc sampling, `generate_offset_path` and
`sample_path_at_intervals` use Python float trigonometry and square
roots; they are modelled over the exact reals.  Only the existence and
lengths of the produced lists matter to the claims below. -/

/-- Python `int(r)` on a real value: truncation toward zero. -/
noncomputable def realTrunc (r : ℝ) : ℤ :=
  if 0 ≤ r then ⌊r⌋ else ⌈r⌉

/-- `math.atan2 y x`. -/
noncomputable def atan2 (y x : ℝ) : ℝ :=
  Complex.arg ⟨x, y⟩

/-- `norm_angle` (via_stitcher.py:417-420): reduce an angle to `[0, 2π)`
(the closed form of the two `while` loops, which terminate on any real). -/
noncomputable def norm_angle (a : ℝ) : ℝ :=
  a - 2 * Real.pi * ⌊a / (2 * Real.pi)⌋

/-- A selected track as consumed by `chain_tracks_into_paths`
(via_stitcher.py:404-440).  For arcs, `center`, `radius`, `start_angle`
and `angle` are the values computed by the kipy geometry collaborators
(`track.center()` etc.), carried here as data; `none` models a Python
`None` result. -/
inductive Track where
  | straight (start_x start_y end_x end_y : Int)
  | arc (start_x start_y mid_x mid_y end_x end_y : Int)
        (center : Option (ℝ × ℝ)) (radius : ℝ)
        (start_angle angle : Option ℝ)

/-- Conversion of one track into one polyline (via_stitcher.py:404-440):
straight tracks and degenerate arcs give their two endpoints, real arcs
are sampled (`start_angle or 0` / `arc_angle or math.pi` model Python
`or` on the falsy values `None` and `0.0`). -/
noncomputable def track_to_polyline (t : Track) : List PointI :=
  match t with
  | .straight sx sy ex ey => [(sx, sy), (ex, ey)]
  | .arc sx sy mx my ex ey center radius start_angle angle =>
    match center with
    | none => [(sx, sy), (ex, ey)]
    | some c =>
      if radius > 0 then
        let start_angle := match start_angle with
          | none => (0 : ℝ) | some a => if a = 0 then 0 else a
        let arc_angle := match angle with
          | none => Real.pi | some a => if a = 0 then Real.pi else a
        let mid_angle := atan2 ((my : ℝ) - c.2) ((mx : ℝ) - c.1)
        let diff0 := norm_angle mid_angle - norm_angle start_angle
        let diff := if diff0 > Real.pi then diff0 - 2 * Real.pi
                    else if diff0 < -Real.pi then diff0 + 2 * Real.pi else diff0
        let direction : ℝ := if diff > 0 then 1 else -1
        let num_samples := max 8 (realTrunc (radius * arc_angle / 500000)).toNat
        (List.range (num_samples + 1)).map (fun i =>
          let a := start_angle + (arc_angle * i / num_samples) * direction
          (realTrunc (c.1 + radius * Real.cos a),
           realTrunc (c.2 + radius * Real.sin a)))
      else [(sx, sy), (ex, ey)]

/-- `chain_tracks_into_paths` (via_stitcher.py:394-487): arc sampling
followed by the greedy chaining loop. -/
noncomputable def chain_tracks_into_paths (tracks : List Track) :
    List (List PointI) :=
  if tracks.isEmpty then []
  else chain_segments_into_paths (tracks.map track_to_polyline)

/-- The averaged direction vector computed by `generate_offset_path` at
vertex `i` (via_stitcher.py:512-537): the single adjacent edge direction
at the endpoints, the sum of the two normalized edge directions at an
interior vertex. -/
noncomputable def offset_dir (path : List PointI) (i : Nat) : ℝ × ℝ :=
  let p := path.getD i (0, 0)
  let x : ℝ := p.1
  let y : ℝ := p.2
  if i = 0 then
    (((path.getD 1 (0, 0)).1 : ℝ) - x, ((path.getD 1 (0, 0)).2 : ℝ) - y)
  else if i = path.length - 1 then
    (x - ((path.getD (i - 1) (0, 0)).1 : ℝ), y - ((path.getD (i - 1) (0, 0)).2 : ℝ))
  else
    let dx1 := x - ((path.getD (i - 1) (0, 0)).1 : ℝ)
    let dy1 := y - ((path.getD (i - 1) (0, 0)).2 : ℝ)
    let dx2 := ((path.getD (i + 1) (0, 0)).1 : ℝ) - x
    let dy2 := ((path.getD (i + 1) (0, 0)).2 : ℝ) - y
    let len1 := Real.sqrt (dx1 * dx1 + dy1 * dy1)
    let len2 := Real.sqrt (dx2 * dx2 + dy2 * dy2)
    if len1 > 0 ∧ len2 > 0 then (dx1 / len1 + dx2 / len2, dy1 / len1 + dy2 / len2)
    else if len1 > 0 then (dx1, dy1)
    else (dx2, dy2)

/-- `generate_offset_path` (via_stitcher.py:490-552): one angle-bisector
normal per vertex; vertices whose averaged direction vanishes are skipped
by the `if length == 0: continue`. -/
noncomputable def generate_offset_path (path : List PointI) (offset : Int)
    (side : Int) : List PointI :=
  if path.length < 2 then []
  else
    (List.range path.length).filterMap (fun i =>
      let p := path.getD i (0, 0)
      let x : ℝ := p.1
      let y : ℝ := p.2
      let d : ℝ × ℝ := offset_dir path i
      let length := Real.sqrt (d.1 * d.1 + d.2 * d.2)
      if length = 0 then none
      else
        let px := -d.2 / length * (side : ℝ)
        let py := d.1 / length * (side : ℝ)
        some (realTrunc (x + (offset : ℝ) * px), realTrunc (y + (offset : ℝ) * py)))

/-- `sample_path_at_intervals` (via_stitcher.py:555-600).  The inner
`while pos <= seg_len` walk is modelled in closed form
(`⌊(seg_len - remaining)/spacing⌋ + 1` samples when it runs at all);
the running remainder uses the float `%`, i.e. `a - s·⌊a/s⌋`. -/
noncomputable def sample_path_at_intervals (path : List PointI) (spacing : Int) :
    List PointI :=
  if path.length < 2 then path
  else
    let st := (path.zip (path.drop 1)).foldl
      (fun (st : List PointI × ℝ) pq =>
        let dx : ℝ := (pq.2.1 - pq.1.1 : Int)
        let dy : ℝ := (pq.2.2 - pq.1.2 : Int)
        let seg_len := Real.sqrt (dx * dx + dy * dy)
        if seg_len = 0 then st
        else
          let remaining := (spacing : ℝ) - st.2
          let cnt : Nat :=
            if 0 < (spacing : ℝ) ∧ remaining ≤ seg_len then
              (⌊(seg_len - remaining) / (spacing : ℝ)⌋).toNat + 1
            else 0
          let news := (List.range cnt).map (fun k =>
            let pos := remaining + (k : ℝ) * (spacing : ℝ)
            let t := pos / seg_len
            (realTrunc ((pq.1.1 : ℝ) + t * dx), realTrunc ((pq.1.2 : ℝ) + t * dy)))
          (st.1 ++ news,
           (st.2 + seg_len) - (spacing : ℝ) * ⌊(st.2 + seg_len) / (spacing : ℝ)⌋))
      ([path.headD (0, 0)], (0 : ℝ))
    if st.1.getLast? ≠ some (path.getLastD (0, 0)) then
      st.1 ++ [path.getLastD (0, 0)]
    else st.1

/-- `generate_path_fence_positions` (via_stitcher.py:603-632). -/
noncomputable def generate_path_fence_positions (tracks : List Track)
    (spacing_nm offset_nm : Int) (both_sides : Bool) : List PointI :=
  let paths := chain_tracks_into_paths tracks
  let sides : List Int := if both_sides then [1, -1] else [1]
  paths.flatMap (fun path =>
    if path.length < 2 then []
    else sides.flatMap (fun side =>
      let offset_path := generate_offset_path path offset_nm side
      if offset_path.length < 2 then []
      else sample_path_at_intervals offset_path spacing_nm))

/-! ## Orchestration (via_stitcher.py:102-143, 1079-1287) -/

/-- `StitchMode` (via_stitcher.py:102-105). -/
inductive StitchMode where
  | fill
  | fence_zone
  | fence_trace
deriving DecidableEq

/-- `ViaType` values used by the plugin. -/
inductive ViaType where
  | through
  | blind_buried
  | micro
deriving DecidableEq

/-- `StitchingConfig` (via_stitcher.py:108-130).  Layers are identified
by name. -/
structure StitchingConfig where
  net_names : List String
  via_diameter_nm : Int
  via_drill_nm : Int
  grid_spacing_nm : Int
  stagger_rows : Bool
  clearance_nm : Int
  boundary_clearance_nm : Int
  random_offset : Bool
  random_offset_max_nm : Int
  mode : StitchMode
  fence_spacing_nm : Int
  fence_offset_nm : Int
  fence_both_sides : Bool
  selected_only : Bool
  via_type : ViaType
  start_layer : Option String
  end_layer : Option String
  board_corner_radius_nm : Int

/-- A value of the `rejected_reasons` dict: the per-reason rejection
counters are ints, but the guard-failure entries written at
via_stitcher.py:1098, 1104, 1109, 1196, 1208 are explanatory strings. -/
inductive RVal where
  | count (n : Nat)
  | msg (s : String)
deriving DecidableEq

/-- An accepted via as built at via_stitcher.py:1148-1158 / 1270-1280. -/
structure ViaOut where
  x : Int
  y : Int
  net : String
  via_type : ViaType
  diameter : Int
  drill : Int
  start_layer : Option String
  end_layer : Option String
deriving DecidableEq

/-- `StitchingResult` (via_stitcher.py:133-142); `rejected_reasons` is an
insertion-ordered association list, like a Python dict. -/
structure StitchingResult where
  zones_found : Nat := 0
  tracks_found : Nat := 0
  candidates : Nat := 0
  valid : Nat := 0
  rejected : Nat := 0
  rejected_reasons : List (String × RVal) := []
  vias : List ViaOut := []
deriving DecidableEq

/-- A zone as consumed by the orchestrator: its net (None-able) and the
polygon data the extraction collaborators return for it. -/
structure Zone where
  net : Option String
  filled_polygons : List (List PointI)
  outline_pts : List PointI

/-- The board snapshot handed to the core: zone and net lists for the
orchestrator plus the obstacle data that `extract_board_data`
(via_stitcher.py:803-902) copies out of the live board through the kipy
collaborators (spec §6); the outline is the already-extracted
`get_board_outline` polygon. -/
structure Board where
  zones : List Zone
  nets : List String
  bd_tracks : List TrackData
  bd_pads : List PadData
  bd_vias : List ViaData
  bd_outline : List PointI
  bd_copper_layers : List String

/-- `get_zone_filled_polygons` (via_stitcher.py:198-219): the non-empty
filled polygons, falling back to the zone outline when there are none. -/
def get_zone_filled_polygons (zone : Zone) : List (List PointI) :=
  let polygons := zone.filled_polygons.filter (fun pts => !pts.isEmpty)
  if polygons.isEmpty then
    if zone.outline_pts.isEmpty then [] else [zone.outline_pts]
  else polygons

/-- `extract_board_data` (via_stitcher.py:803-902), assembling the
snapshot.  The host-side geometry walks (`get_board_outline` with the
`corner_radius` arc synthesis, padstack maximisation, layer detection)
are the §6 extraction collaborators; their results are the `bd_*` fields
of `Board`, so `corner_radius` is already reflected in `bd_outline`. -/
def extract_board_data (board : Board) (_corner_radius : Int) : BoardData :=
  { tracks := board.bd_tracks
    pads := board.bd_pads
    vias := board.bd_vias
    zone_polygons := board.zones.flatMap (fun z =>
      (get_zone_filled_polygons z).map (fun pts => (z.net.getD "", pts)))
    board_outline := board.bd_outline
    copper_layers := board.bd_copper_layers }

/-- `result.rejected_reasons[reason] = result.rejected_reasons.get(reason, 0) + 1`
(via_stitcher.py:1163, 1285).  The `.msg` branch mirrors what the source
would only reach if a guard-failure message coexisted with counting,
which never happens because guard failures return immediately. -/
def bump_reason (m : List (String × RVal)) (k : String) : List (String × RVal) :=
  match m with
  | [] => [(k, .count 1)]
  | (k', v) :: rest =>
    if k' = k then
      match v with
      | .count n => (k', .count (n + 1)) :: rest
      | .msg _ => (k', .count 1) :: rest
    else (k', v) :: bump_reason rest k

/-- The via constructed for an accepted candidate
(via_stitcher.py:1148-1158 / 1270-1280). -/
def mk_via (config : StitchingConfig) (net : String) (x y : Int) : ViaOut :=
  { x := x
    y := y
    net := net
    via_type := config.via_type
    diameter := config.via_diameter_nm
    drill := config.via_drill_nm
    start_layer := if config.via_type ≠ ViaType.through then config.start_layer else none
    end_layer := if config.via_type ≠ ViaType.through then config.end_layer else none }

/-- The result-accumulation loop shared by both orchestrators
(via_stitcher.py:1146-1163 and 1268-1285). -/
def process_check_results (mk : Int → Int → ViaOut)
    (results : List (Int × Int × Bool × String)) (acc : StitchingResult) :
    StitchingResult :=
  results.foldl
    (fun r cr =>
      if cr.2.2.1 then
        { r with vias := r.vias ++ [mk cr.1 cr.2.1], valid := r.valid + 1 }
      else
        { r with rejected := r.rejected + 1,
                 rejected_reasons := bump_reason r.rejected_reasons cr.2.2.2 })
    acc

/-- `generate_trace_fencing` (via_stitcher.py:1079-1165). -/
noncomputable def generate_trace_fencing (board : Board)
    (config : StitchingConfig) (selected_tracks : Option (List Track)) :
    StitchingResult :=
  let target_nets := config.net_names
  let net_objects := board.nets.filter (fun n => n ∈ target_nets)
  if net_objects = [] then
    { rejected_reasons := [("no_nets", .msg "No matching nets found for fence vias")] }
  else
    let fence_net : Option String :=
      match config.net_names with
      | [] => none
      | n0 :: _ => if n0 ∈ net_objects then some n0 else none
    match fence_net with
    | none =>
      { rejected_reasons := [("no_fence_net", .msg "No net found for fence vias")] }
    | some fnet =>
      match selected_tracks with
      | none =>
        { rejected_reasons := [("no_tracks",
            .msg "No tracks selected. Select the traces you want to fence in KiCad first.")] }
      | some tracks_to_fence =>
        if tracks_to_fence.isEmpty then
          { rejected_reasons := [("no_tracks",
              .msg "No tracks selected. Select the traces you want to fence in KiCad first.")] }
        else
          let via_radius := config.via_diameter_nm.fdiv 2
          let board_data := extract_board_data board config.board_corner_radius_nm
          let all_positions := generate_path_fence_positions tracks_to_fence
            config.fence_spacing_nm config.fence_offset_nm config.fence_both_sides
          let check_results := check_positions_batch all_positions via_radius
            target_nets config.clearance_nm same_net_clearance_nm
            config.boundary_clearance_nm board_data true none
          process_check_results (mk_via config fnet) check_results
            { tracks_found := tracks_to_fence.length,
              candidates := all_positions.length }

/-- Whether a zone participates for the target nets
(via_stitcher.py:1202-1204): its net object exists and its name matches. -/
def zone_matches (target_nets : List String) (z : Zone) : Bool :=
  match z.net with
  | some nm => decide (nm ∈ target_nets)
  | none => false

/-- `generate_via_stitching` (via_stitcher.py:1168-1287).  `jit zi pi`
is the random-jitter oracle used for the grid of polygon `pi` of target
zone `zi` (the source draws from one global RNG; quantifying over all
`jit` families covers every draw sequence). -/
noncomputable def generate_via_stitching (board : Board)
    (config : StitchingConfig) (selected_zones : Option (List Zone))
    (selected_tracks : Option (List Track))
    (jit : Nat → Nat → Nat → Nat → Int × Int) : StitchingResult :=
  if config.mode = StitchMode.fence_trace then
    generate_trace_fencing board config selected_tracks
  else
    let target_nets := config.net_names
    let net_objects := board.nets.filter (fun n => n ∈ target_nets)
    if net_objects = [] then
      { rejected_reasons := [("no_nets", .msg "No matching nets found")] }
    else
      let target_zones :=
        if config.selected_only ∧ ¬(selected_zones.getD []).isEmpty then
          (selected_zones.getD []).filter (zone_matches target_nets)
        else board.zones.filter (zone_matches target_nets)
      if target_zones.isEmpty then
        { zones_found := target_zones.length,
          rejected_reasons := [("no_zones", .msg "No zones found for target nets")] }
      else
        let via_radius := config.via_diameter_nm.fdiv 2
        let board_data := extract_board_data board config.board_corner_radius_nm
        let is_fence_mode := config.mode = StitchMode.fence_zone
        target_zones.enum.foldl
          (fun (r : StitchingResult) zz =>
            let zone := zz.2
            let zone_net := zone.net.getD ""
            if zone_net ∉ net_objects then r
            else
              (get_zone_filled_polygons zone).enum.foldl
                (fun (r : StitchingResult) pp =>
                  let polygon_pts := pp.2
                  if polygon_pts.isEmpty then r
                  else
                    let grid_positions :=
                      if config.mode = StitchMode.fill then
                        let all_x := polygon_pts.map (fun p => p.1)
                        let all_y := polygon_pts.map (fun p => p.2)
                        let min_x := all_x.foldl min (all_x.headD 0)
                        let max_x := all_x.foldl max (all_x.headD 0)
                        let min_y := all_y.foldl min (all_y.headD 0)
                        let max_y := all_y.foldl max (all_y.headD 0)
                        (generate_grid_positions min_x min_y max_x max_y
                            config.grid_spacing_nm config.stagger_rows
                            config.random_offset (jit zz.1 pp.1)).filter
                          (fun p => point_in_polygon p.1 p.2 polygon_pts)
                      else
                        generate_fence_positions polygon_pts config.fence_spacing_nm
                    let r := { r with candidates := r.candidates + grid_positions.length }
                    let check_results := check_positions_batch grid_positions
                      via_radius target_nets config.clearance_nm
                      same_net_clearance_nm config.boundary_clearance_nm
                      board_data is_fence_mode (some polygon_pts)
                    process_check_results (mk_via config zone_net) check_results r)
                r)
          { zones_found := target_zones.length }

/-! ## Shared helper lemmas -/

/-- Invariant preservation through a left fold. -/
theorem foldl_preserves {α β : Type} {P : β → Prop} {f : β → α → β}
    (h : ∀ b a, P b → P (f b a)) :
    ∀ (l : List α) (b : β), P b → P (l.foldl f b) := by
  intro l
  induction l with
  | nil => intro b hb; exact hb
  | cons a t ih => intro b hb; exact ih (f b a) (h b a hb)

theorem fdiv_neg_neg (a b : ℤ) : (-a).fdiv (-b) = a.fdiv b := by
  match a, b with
  | .ofNat 0, b => cases b <;> simp [Int.fdiv]
  | .ofNat (m+1), .ofNat 0 => norm_num [Int.fdiv_zero]
  | .ofNat (m+1), .ofNat (n+1) => show (Int.negSucc m).fdiv (Int.negSucc n) = _ ; rfl
  | .ofNat (m+1), .negSucc n => show (Int.negSucc m).fdiv (Int.ofNat (n+1)) = _ ; rfl
  | .negSucc m, .ofNat 0 => norm_num [Int.fdiv_zero]
  | .negSucc m, .ofNat (n+1) => show (Int.ofNat (m+1)).fdiv (Int.negSucc n) = _ ; rfl
  | .negSucc m, .negSucc n => show (Int.ofNat (m+1)).fdiv (Int.ofNat (n+1)) = _ ; rfl

/-- Python `N // D` (= `Int.fdiv`) is the floor of the exact quotient. -/
theorem fdiv_eq_floor_div (N D : ℤ) : N.fdiv D = ⌊(N : ℚ) / (D : ℚ)⌋ := by
  rcases lt_trichotomy D 0 with hD | hD | hD
  · have h1 : N.fdiv D = (-N).fdiv (-D) := (fdiv_neg_neg N D).symm
    obtain ⟨d, hd⟩ := Int.eq_ofNat_of_zero_le (by omega : (0 : ℤ) ≤ -D)
    have h2 : (-N).fdiv (-D) = (-N) / (-D) := Int.fdiv_eq_ediv _ (by omega)
    have h4 : (N : ℚ) / (D : ℚ) = ((-N : ℤ) : ℚ) / ((-D : ℤ) : ℚ) := by
      push_cast
      rw [neg_div_neg_eq]
    rw [h1, h2, h4, hd]
    rw [show (((d : ℕ) : ℤ) : ℚ) = ((d : ℕ) : ℚ) from by push_cast ; rfl]
    exact (Rat.floor_intCast_div_natCast (-N) d).symm
  · subst hD; simp
  · obtain ⟨d, hd⟩ := Int.eq_ofNat_of_zero_le hD.le
    rw [Int.fdiv_eq_ediv _ hD.le, hd]
    rw [show (((d : ℕ) : ℤ) : ℚ) = ((d : ℕ) : ℚ) from by push_cast ; rfl]
    exact (Rat.floor_intCast_div_natCast N d).symm

/-- Strict comparison against a floor division, as an exact condition. -/
theorem lt_fdiv_iff (m N D : ℤ) : m < N.fdiv D ↔ (m : ℚ) + 1 ≤ (N : ℚ) / (D : ℚ) := by
  rw [fdiv_eq_floor_div]
  rw [Int.lt_iff_add_one_le, Int.le_floor]
  push_cast
  rfl

/-! ## C4: point-to-segment distance, degenerate segment and reversal -/

/-- C4 (amended): when the segment has zero length (both endpoints equal),
`point_to_segment_distance_sq` returns exactly the squared point-to-point
distance to that endpoint (and reversal symmetry is then trivial).  For
nondegenerate segments reversal symmetry fails in general — see the
counterexample. -/
theorem point_to_segment_distance_sq_zero_length (px py x1 y1 : Int) :
    point_to_segment_distance_sq px py x1 y1 x1 y1 =
      (px - x1) ^ 2 + (py - y1) ^ 2 := by
  simp [point_to_segment_distance_sq]

/-- C4 counterexample: swapping the endpoints changes the result
(2 versus 4) at `p = (-1, 0)`, segment `(0, -2)–(1, 0)`; the truncation
of the interpolated closest point is not reversal-symmetric.  All float
operations at these values are exact, so the Python source computes the
same two values. -/
theorem point_to_segment_distance_sq_not_symmetric :
    point_to_segment_distance_sq (-1) 0 0 (-2) 1 0 ≠
      point_to_segment_distance_sq (-1) 0 1 0 0 (-2) := by
  have h1 : point_to_segment_distance_sq (-1) 0 0 (-2) 1 0 = 2 := by
    norm_num [point_to_segment_distance_sq, ratTrunc]
    decide
  have h2 : point_to_segment_distance_sq (-1) 0 1 0 0 (-2) = 4 := by
    norm_num [point_to_segment_distance_sq, ratTrunc]
    decide
  rw [h1, h2]
  decide

/-! ## C10: the per-candidate validator is deterministic -/

/-- C10: `check_position_parallel` is a pure function of its arguments:
two invocations with equal candidate coordinates, via radius, target
nets, clearances, board data, fence flag and zone polygon return equal
results.  The embedding is stateless because the source function reads
no module state, no RNG and performs no I/O (via_stitcher.py:905-1030),
which is what makes this definition well-formed at all. -/
theorem check_position_parallel_deterministic
    (x y via_radius : Int) (target_nets : List String)
    (clearance same_net_clearance boundary_clearance : Int)
    (board_data : BoardData) (is_fence_mode : Bool)
    (polygon_pts : Option (List PointI))
    (x' y' via_radius' : Int) (target_nets' : List String)
    (clearance' same_net_clearance' boundary_clearance' : Int)
    (board_data' : BoardData) (is_fence_mode' : Bool)
    (polygon_pts' : Option (List PointI))
    (h1 : x = x') (h2 : y = y') (h3 : via_radius = via_radius')
    (h4 : target_nets = target_nets') (h5 : clearance = clearance')
    (h6 : same_net_clearance = same_net_clearance')
    (h7 : boundary_clearance = boundary_clearance')
    (h8 : board_data = board_data') (h9 : is_fence_mode = is_fence_mode')
    (h10 : polygon_pts = polygon_pts') :
    check_position_parallel x y via_radius target_nets clearance
        same_net_clearance boundary_clearance board_data is_fence_mode
        polygon_pts =
      check_position_parallel x' y' via_radius' target_nets' clearance'
        same_net_clearance' boundary_clearance' board_data' is_fence_mode'
        polygon_pts' := by
  subst h1 h2 h3 h4 h5 h6 h7 h8 h9 h10
  rfl

/-- C10 witness: the determinism theorem applied at a concrete input. -/
theorem check_position_parallel_deterministic_witness :
    check_position_parallel 0 0 300000 ["GND"] 200000 127000 300000
        ⟨[], [], [], [], [], ["BL_F_Cu"]⟩ false none =
      check_position_parallel 0 0 300000 ["GND"] 200000 127000 300000
        ⟨[], [], [], [], [], ["BL_F_Cu"]⟩ false none :=
  check_position_parallel_deterministic 0 0 300000 ["GND"] 200000 127000 300000
    ⟨[], [], [], [], [], ["BL_F_Cu"]⟩ false none
    0 0 300000 ["GND"] 200000 127000 300000
    ⟨[], [], [], [], [], ["BL_F_Cu"]⟩ false none
    rfl rfl rfl rfl rfl rfl rfl rfl rfl rfl

/-! ## C2: the existing-via clearance boundary -/

/-- C2 (amended): for a candidate and one existing via, with
`d2` the squared centre distance: a different-net candidate exactly at
distance `via_radius + existing_radius + clearance` is never rejected by
the via check; one strictly closer is rejected with reason `via`
**provided** the candidate lies within the coarse pre-filter box
`via_radius + clearance + 1.5mm` (per axis) around the via — an existing
via with radius above ~1.5 mm can fall outside that box while violating
clearance, and is then not rejected (see the counterexample).  When the
via's net is in the target set the same comparison uses the fixed
same-net constant 0.127 mm (`same_net_clearance_nm`) independently of the
configured copper `clearance`.  The last conjunct ties the single-via
check to the full validator when every other check passes (no other
obstacles, empty outline): the result is acceptance or rejection with
reason `via` exactly as the via check decides. -/
theorem via_clearance_boundary (x y via_radius clearance boundary_clearance
    vx vy vr : Int) (vnet : String) (target_nets : List String) :
    ((vnet ∉ target_nets →
      (x - vx) * (x - vx) + (y - vy) * (y - vy) =
        (via_radius + vr + clearance) * (via_radius + vr + clearance) →
      via_rejects x y via_radius clearance same_net_clearance_nm target_nets
        ⟨vx, vy, vr, vnet⟩ = false) ∧
    (vnet ∉ target_nets →
      |x - vx| ≤ via_radius + clearance + 1500000 →
      |y - vy| ≤ via_radius + clearance + 1500000 →
      (x - vx) * (x - vx) + (y - vy) * (y - vy) <
        (via_radius + vr + clearance) * (via_radius + vr + clearance) →
      via_rejects x y via_radius clearance same_net_clearance_nm target_nets
        ⟨vx, vy, vr, vnet⟩ = true) ∧
    (vnet ∈ target_nets →
      (x - vx) * (x - vx) + (y - vy) * (y - vy) =
        (via_radius + vr + same_net_clearance_nm) *
          (via_radius + vr + same_net_clearance_nm) →
      via_rejects x y via_radius clearance same_net_clearance_nm target_nets
        ⟨vx, vy, vr, vnet⟩ = false) ∧
    (vnet ∈ target_nets →
      |x - vx| ≤ via_radius + clearance + 1500000 →
      |y - vy| ≤ via_radius + clearance + 1500000 →
      (x - vx) * (x - vx) + (y - vy) * (y - vy) <
        (via_radius + vr + same_net_clearance_nm) *
          (via_radius + vr + same_net_clearance_nm) →
      via_rejects x y via_radius clearance same_net_clearance_nm target_nets
        ⟨vx, vy, vr, vnet⟩ = true) ∧
    (check_position_parallel x y via_radius target_nets clearance
        same_net_clearance_nm boundary_clearance
        ⟨[], [], [⟨vx, vy, vr, vnet⟩], [], [], []⟩ true none =
      if via_rejects x y via_radius clearance same_net_clearance_nm target_nets
          ⟨vx, vy, vr, vnet⟩
      then (x, y, false, "via") else (x, y, true, ""))) := by
  refine ⟨?_, ?_, ?_, ?_, ?_⟩
  · intro hnet hd2
    simp only [via_rejects, hnet, if_false]
    split
    · rfl
    · simp [hd2]
  · intro hnet hax hay hd2
    simp only [via_rejects]
    rw [if_neg (by push_neg; exact ⟨hax, hay⟩)]
    simp [hnet, hd2]
  · intro hnet hd2
    simp only [via_rejects, hnet, if_true]
    split
    · rfl
    · simp [hd2]
  · intro hnet hax hay hd2
    simp only [via_rejects]
    rw [if_neg (by push_neg; exact ⟨hax, hay⟩)]
    simp [hnet, hd2]
  · simp only [check_position_parallel]
    cases h : via_rejects x y via_radius clearance same_net_clearance_nm
        target_nets ⟨vx, vy, vr, vnet⟩ <;>
      simp [h]

/-- C2 witness: the boundary theorem applied at concrete values
(via radius 0.3 mm, clearance 0.2 mm, existing via radius 0.3 mm):
different-net boundary 0.8 mm, same-net boundary 0.727 mm. -/
theorem via_clearance_boundary_witness :
    via_rejects 800000 0 300000 200000 same_net_clearance_nm ["GND"]
        ⟨0, 0, 300000, "VCC"⟩ = false ∧
    via_rejects 799999 0 300000 200000 same_net_clearance_nm ["GND"]
        ⟨0, 0, 300000, "VCC"⟩ = true ∧
    via_rejects 727000 0 300000 200000 same_net_clearance_nm ["GND"]
        ⟨0, 0, 300000, "GND"⟩ = false ∧
    via_rejects 726999 0 300000 200000 same_net_clearance_nm ["GND"]
        ⟨0, 0, 300000, "GND"⟩ = true ∧
    check_position_parallel 799999 0 300000 ["GND"] 200000
        same_net_clearance_nm 300000
        ⟨[], [], [⟨0, 0, 300000, "VCC"⟩], [], [], []⟩ true none =
      (799999, 0, false, "via") := by
  have T1 := via_clearance_boundary 800000 0 300000 200000 300000 0 0 300000
    "VCC" ["GND"]
  have T2 := via_clearance_boundary 799999 0 300000 200000 300000 0 0 300000
    "VCC" ["GND"]
  have T3 := via_clearance_boundary 727000 0 300000 200000 300000 0 0 300000
    "GND" ["GND"]
  have T4 := via_clearance_boundary 726999 0 300000 200000 300000 0 0 300000
    "GND" ["GND"]
  have h2 := T2.2.1 (by decide) (by decide) (by decide) (by decide)
  refine ⟨T1.1 (by decide) (by decide), h2,
    T3.2.2.1 (by decide) (by decide),
    T4.2.2.2.1 (by decide) (by decide) (by decide) (by decide), ?_⟩
  rw [T2.2.2.2.2, h2]
  decide

/-- C2 counterexample: against an existing 4 mm-diameter via of a
different net, a candidate one nanometre closer than the exact clearance
distance (2499999 nm < 2500000 nm = 0.3 + 2 + 0.2 mm) is NOT rejected:
the coarse pre-filter box (0.3 + 0.2 + 1.5 mm = 2 mm) skips the via and
the validator accepts the position, contradicting the claim that any
closer candidate is rejected with reason `via`. -/
theorem via_prefilter_counterexample :
    (2499999 - 0) * (2499999 - 0) + (0 - 0) * (0 - 0) <
        (300000 + 2000000 + 200000) * (300000 + 2000000 + 200000) ∧
    check_position_parallel 2499999 0 300000 ["GND"] 200000
        same_net_clearance_nm 300000
        ⟨[], [], [⟨0, 0, 2000000, "VCC"⟩], [], [], []⟩ true none =
      (2499999, 0, true, "") := by
  exact ⟨by decide, by decide⟩

/-! ## C9: empty board outline skips the board checks -/

/-- The track loop only ever reports `arc` or `track`. -/
theorem track_rejection_values (x y via_radius clearance same_net_clearance : Int)
    (target_nets copper_layers : List String) (t : TrackData) (s : String)
    (h : track_rejection x y via_radius clearance same_net_clearance
        target_nets copper_layers t = some s) :
    s = "arc" ∨ s = "track" := by
  unfold track_rejection at h
  repeat split at h
  all_goals try simp_all
  obtain ⟨-, -, h⟩ := h
  repeat split at h
  all_goals simp_all

/-- C9: when the snapshot's board outline is empty, the validator never
reports `outside_board` or `board_edge`: both the containment check and
the board-edge clearance check are guarded by `if board_outline:` and are
skipped entirely, and no later check produces those reasons. -/
theorem empty_outline_skips_board_checks (x y via_radius : Int)
    (target_nets : List String)
    (clearance same_net_clearance boundary_clearance : Int)
    (board_data : BoardData) (is_fence_mode : Bool)
    (polygon_pts : Option (List PointI))
    (houtline : board_data.board_outline = []) :
    (check_position_parallel x y via_radius target_nets clearance
        same_net_clearance boundary_clearance board_data is_fence_mode
        polygon_pts).2.2.2 ≠ "outside_board" ∧
    (check_position_parallel x y via_radius target_nets clearance
        same_net_clearance boundary_clearance board_data is_fence_mode
        polygon_pts).2.2.2 ≠ "board_edge" := by
  unfold check_position_parallel
  rw [houtline]
  simp only [ne_eq, not_true_eq_false, false_and, if_false]
  split
  · simp
  · split
    · simp
    · split
      · simp
      · split
        · rename_i reason hsome
          obtain ⟨t, -, ht⟩ := List.exists_of_findSome?_eq_some hsome
          have := track_rejection_values x y via_radius clearance
            same_net_clearance target_nets board_data.copper_layers t reason ht
          rcases this with h | h <;> simp [h]
        · split <;> simp

/-- C9 witness: the theorem applied to a concrete empty-outline snapshot. -/
theorem empty_outline_skips_board_checks_witness :
    (⟨[], [], [], [], [], ["BL_F_Cu"]⟩ : BoardData).board_outline = [] ∧
    ((check_position_parallel 5 7 300000 ["GND"] 200000 127000 300000
        ⟨[], [], [], [], [], ["BL_F_Cu"]⟩ false none).2.2.2 ≠ "outside_board" ∧
     (check_position_parallel 5 7 300000 ["GND"] 200000 127000 300000
        ⟨[], [], [], [], [], ["BL_F_Cu"]⟩ false none).2.2.2 ≠ "board_edge") :=
  ⟨rfl, empty_outline_skips_board_checks 5 7 300000 ["GND"] 200000 127000 300000
    ⟨[], [], [], [], [], ["BL_F_Cu"]⟩ false none rfl⟩

/-! ## C3: FenceTrace with no selected tracks -/

/-- C3: in FenceTrace mode, whenever the supplied selection is `None` or
empty, the run returns a `StitchingResult` with zero valid vias, zero
candidates, an empty via list and a populated reason-map entry — no
exception (the model is a total function through this path) and no
fallback to stitching all board tracks (nothing is generated at all).
The populated entry is `no_tracks`, or `no_nets`/`no_fence_net` when the
target-net guards fire first. -/
theorem fence_trace_requires_selection (board : Board)
    (config : StitchingConfig) (selected_zones : Option (List Zone))
    (selected_tracks : Option (List Track))
    (jit : Nat → Nat → Nat → Nat → Int × Int)
    (hmode : config.mode = StitchMode.fence_trace)
    (hsel : selected_tracks = none ∨ selected_tracks = some []) :
    (generate_via_stitching board config selected_zones selected_tracks jit).valid = 0 ∧
    (generate_via_stitching board config selected_zones selected_tracks jit).candidates = 0 ∧
    (generate_via_stitching board config selected_zones selected_tracks jit).vias = [] ∧
    (generate_via_stitching board config selected_zones selected_tracks jit).rejected_reasons ≠ [] := by
  have aux : ∃ k m, generate_trace_fencing board config selected_tracks =
      { rejected_reasons := [(k, RVal.msg m)] } := by
    simp only [generate_trace_fencing]
    split
    · exact ⟨_, _, rfl⟩
    · split
      · exact ⟨_, _, rfl⟩
      · rcases hsel with h | h <;> subst h
        · exact ⟨_, _, rfl⟩
        · simp only [List.isEmpty_nil, if_true]
          exact ⟨_, _, rfl⟩
  obtain ⟨k, m, h⟩ := aux
  unfold generate_via_stitching
  rw [if_pos hmode, h]
  exact ⟨rfl, rfl, rfl, by simp⟩

/-- C3 witness: a concrete FenceTrace run with an empty selection on a
board that has the target net. -/
theorem fence_trace_requires_selection_witness :
    (⟨["GND"], 600000, 300000, 2000000, true, 200000, 300000, false, 200000,
        StitchMode.fence_trace, 1000000, 500000, true, false, ViaType.through,
        none, none, 0⟩ : StitchingConfig).mode = StitchMode.fence_trace ∧
    ((none : Option (List Track)) = none ∨ (none : Option (List Track)) = some []) ∧
    ((generate_via_stitching ⟨[], ["GND"], [], [], [], [], []⟩
        ⟨["GND"], 600000, 300000, 2000000, true, 200000, 300000, false, 200000,
          StitchMode.fence_trace, 1000000, 500000, true, false, ViaType.through,
          none, none, 0⟩ none none (fun _ _ _ _ => (0, 0))).valid = 0 ∧
     (generate_via_stitching ⟨[], ["GND"], [], [], [], [], []⟩
        ⟨["GND"], 600000, 300000, 2000000, true, 200000, 300000, false, 200000,
          StitchMode.fence_trace, 1000000, 500000, true, false, ViaType.through,
          none, none, 0⟩ none none (fun _ _ _ _ => (0, 0))).candidates = 0 ∧
     (generate_via_stitching ⟨[], ["GND"], [], [], [], [], []⟩
        ⟨["GND"], 600000, 300000, 2000000, true, 200000, 300000, false, 200000,
          StitchMode.fence_trace, 1000000, 500000, true, false, ViaType.through,
          none, none, 0⟩ none none (fun _ _ _ _ => (0, 0))).vias = [] ∧
     (generate_via_stitching ⟨[], ["GND"], [], [], [], [], []⟩
        ⟨["GND"], 600000, 300000, 2000000, true, 200000, 300000, false, 200000,
          StitchMode.fence_trace, 1000000, 500000, true, false, ViaType.through,
          none, none, 0⟩ none none (fun _ _ _ _ => (0, 0))).rejected_reasons ≠ []) :=
  ⟨rfl, Or.inl rfl,
    fence_trace_requires_selection ⟨[], ["GND"], [], [], [], [], []⟩
      ⟨["GND"], 600000, 300000, 2000000, true, 200000, 300000, false, 200000,
        StitchMode.fence_trace, 1000000, 500000, true, false, ViaType.through,
        none, none, 0⟩ none none (fun _ _ _ _ => (0, 0)) rfl (Or.inl rfl)⟩

/-! ## C6: raw grid position count -/

/-- Ceiling division for positive divisor, as the claim's `ceil(W/s)`. -/
def ceil_div (a b : Int) : Int := (a + b - 1).fdiv b

theorem while_le_collect_nil (step maxv : Int) (fuel : Nat) (v : Int)
    (h : maxv < v) : while_le_collect step maxv fuel v = [] := by
  cases fuel <;> simp [while_le_collect, not_le.2 h]

theorem while_le_collect_length (step maxv : Int) (hstep : 0 < step) :
    ∀ (fuel : Nat) (v : Int), (maxv - v).toNat / step.toNat < fuel →
      (while_le_collect step maxv fuel v).length =
        if v ≤ maxv then ((maxv - v).fdiv step).toNat + 1 else 0 := by
  intro fuel
  induction fuel with
  | zero => intro v h; exact absurd h (Nat.not_lt_zero _)
  | succ n ih =>
    intro v h
    by_cases hv : v ≤ maxv
    · rw [if_pos hv]
      simp only [while_le_collect, if_pos hv, List.length_cons]
      by_cases hv2 : v + step ≤ maxv
      · have hs0 : 0 < step.toNat := by omega
        have hsub : (maxv - (v + step)).toNat = (maxv - v).toNat - step.toNat := by omega
        have hle : step.toNat ≤ (maxv - v).toNat := by omega
        have hdiveq := Nat.div_eq_sub_div hs0 hle
        have hb : (maxv - (v + step)).toNat / step.toNat < n := by
          rw [hsub]; omega
        rw [ih (v + step) hb, if_pos hv2]
        have hnn : 0 ≤ (maxv - (v + step)).fdiv step :=
          Int.fdiv_nonneg (by omega) hstep.le
        have heq : (maxv - v).fdiv step = (maxv - (v + step)).fdiv step + 1 := by
          rw [Int.fdiv_eq_ediv _ hstep.le, Int.fdiv_eq_ediv _ hstep.le]
          have h1 : maxv - v = (maxv - (v + step)) + 1 * step := by ring
          rw [h1, Int.add_mul_ediv_right _ _ (by omega : step ≠ 0)]
        omega
      · rw [while_le_collect_nil step maxv n (v + step) (by omega), List.length_nil]
        have : (maxv - v).fdiv step = 0 := by
          rw [Int.fdiv_eq_ediv _ hstep.le]
          exact Int.ediv_eq_zero_of_lt (by omega) (by omega)
        omega
    · rw [if_neg hv, while_le_collect_nil step maxv (n + 1) v (by omega)]
      rfl

theorem snap_fdiv_of_dvd {s : Int} (hs : 0 < s) (k : Int) :
    (s * k + s - 1).fdiv s = k := by
  rw [Int.fdiv_eq_ediv _ hs.le]
  have h1 : s * k + s - 1 = (s - 1) + k * s := by ring
  rw [h1, Int.add_mul_ediv_right _ _ (by omega : s ≠ 0),
    Int.ediv_eq_zero_of_lt (by omega) (by omega), zero_add]

/-- C6 (amended): with stagger and jitter disabled and positive spacing
`s`, the raw grid on the bounding box `(min_x, min_y)-(max_x, max_y)` has
exactly `rows * cols` points where `cols = ⌊(max_x - start_x)/s⌋ + 1` for
the ceiling-snapped `start_x` (0 when `start_x > max_x`), and the same
for rows.  The claim's formula `(ceil(W/s)+1)·(ceil(H/s)+1)` holds
exactly when the minimum corner is grid-aligned and `s` divides both
spans; in general it can overcount (see the counterexample). -/
theorem grid_raw_count (min_x min_y max_x max_y s : Int)
    (jit : Nat → Nat → Int × Int) (hs : 0 < s) :
    ((generate_grid_positions min_x min_y max_x max_y s false false jit).length =
      (if ((min_y + s - 1).fdiv s) * s ≤ max_y
       then ((max_y - ((min_y + s - 1).fdiv s) * s).fdiv s).toNat + 1 else 0) *
      (if ((min_x + s - 1).fdiv s) * s ≤ max_x
       then ((max_x - ((min_x + s - 1).fdiv s) * s).fdiv s).toNat + 1 else 0)) ∧
    (s ∣ min_x → s ∣ min_y → s ∣ (max_x - min_x) → s ∣ (max_y - min_y) →
      min_x ≤ max_x → min_y ≤ max_y →
      (generate_grid_positions min_x min_y max_x max_y s false false jit).length =
        ((ceil_div (max_x - min_x) s).toNat + 1) *
          ((ceil_div (max_y - min_y) s).toNat + 1)) := by
  have hmain : (generate_grid_positions min_x min_y max_x max_y s false false jit).length =
      (if ((min_y + s - 1).fdiv s) * s ≤ max_y
       then ((max_y - ((min_y + s - 1).fdiv s) * s).fdiv s).toNat + 1 else 0) *
      (if ((min_x + s - 1).fdiv s) * s ≤ max_x
       then ((max_x - ((min_x + s - 1).fdiv s) * s).fdiv s).toNat + 1 else 0) := by
    simp only [generate_grid_positions, while_le_fuel, Bool.false_and, if_false,
      add_zero, Bool.false_eq_true, List.length_flatMap, Function.comp_def,
      List.length_map, List.enum_length, List.map_const', List.sum_replicate,
      smul_eq_mul]
    rw [while_le_collect_length s max_y hs _ _ (Nat.lt_succ_self _),
      while_le_collect_length s max_x hs _ _ (Nat.lt_succ_self _)]
  refine ⟨hmain, fun hdx hdy hdw hdh hwx hwy => ?_⟩
  obtain ⟨kx, hkx⟩ := hdx
  obtain ⟨ky, hky⟩ := hdy
  obtain ⟨wx, hwxd⟩ := hdw
  obtain ⟨wy, hwyd⟩ := hdh
  rw [hmain]
  have hsx : ((min_x + s - 1).fdiv s) * s = min_x := by
    rw [hkx, snap_fdiv_of_dvd hs kx]; ring
  have hsy : ((min_y + s - 1).fdiv s) * s = min_y := by
    rw [hky, snap_fdiv_of_dvd hs ky]; ring
  rw [hsx, hsy, if_pos hwy, if_pos hwx, hwxd, hwyd]
  have hcx : ceil_div (s * wx) s = wx := by
    unfold ceil_div; exact snap_fdiv_of_dvd hs wx
  have hcy : ceil_div (s * wy) s = wy := by
    unfold ceil_div; exact snap_fdiv_of_dvd hs wy
  rw [hcx, hcy, Int.mul_fdiv_cancel_left _ (by omega : s ≠ 0),
    Int.mul_fdiv_cancel_left _ (by omega : s ≠ 0), Nat.mul_comm]

/-- C6 counterexample: bounding box `(1,1)-(19,19)` with spacing 10, no
stagger, no jitter: the generator produces a single raw point `(10,10)`,
while the claim's formula `(ceil(18/10)+1)²` predicts 9. -/
theorem grid_raw_count_counterexample :
    (generate_grid_positions 1 1 19 19 10 false false (fun _ _ => (0, 0))).length = 1 ∧
    ((ceil_div (19 - 1) 10).toNat + 1) * ((ceil_div (19 - 1) 10).toNat + 1) = 9 ∧
    (1 : Nat) ≠ 9 :=
  ⟨by decide, by decide, by decide⟩

/-- C6 witness: on the grid-aligned box `(0,0)-(20,20)` with spacing 10
the amended theorem yields the claim's count `3 × 3 = 9`. -/
theorem grid_raw_count_witness :
    (0 : Int) < 10 ∧
    (generate_grid_positions 0 0 20 20 10 false false (fun _ _ => (0, 0))).length =
      ((ceil_div (20 - 0) 10).toNat + 1) * ((ceil_div (20 - 0) 10).toNat + 1) :=
  ⟨by decide,
    (grid_raw_count 0 0 20 20 10 (fun _ _ => (0, 0)) (by decide)).2
      (by decide) (by decide) (by decide) (by decide) (by decide) (by decide)⟩

/-! ## C8: point-in-polygon ray casting -/

/-- The per-edge toggle condition actually evaluated by
`point_in_polygon` for index `i` (edge from vertex `j` to vertex `i`,
with `j` the previous index): the crossing abscissa is interpolated with
Python floor division. -/
def pip_edge_cond (x y : Int) (pts : List PointI) (i : Nat) : Bool :=
  let n := pts.length
  let j := if i = 0 then n - 1 else i - 1
  let xi := (pts.getD i (0, 0)).1
  let yi := (pts.getD i (0, 0)).2
  let xj := (pts.getD j (0, 0)).1
  let yj := (pts.getD j (0, 0)).2
  (decide (yi > y) != decide (yj > y)) &&
    decide (x < ((xj - xi) * (y - yi)).fdiv (yj - yi) + xi)

/-- Modelled from the spec: the crossing test of the horizontal ray from
`p` toward +x against edge `i`, with the exact (rational) crossing
abscissa and a strict less-than comparison on the x boundary. -/
def ray_cast_cond_exact (x y : Int) (pts : List PointI) (i : Nat) : Bool :=
  let n := pts.length
  let j := if i = 0 then n - 1 else i - 1
  let xi := (pts.getD i (0, 0)).1
  let yi := (pts.getD i (0, 0)).2
  let xj := (pts.getD j (0, 0)).1
  let yj := (pts.getD j (0, 0)).2
  (decide (yi > y) != decide (yj > y)) &&
    decide ((x : ℚ) < (((xj - xi) * (y - yi) : ℤ) : ℚ) / ((yj - yi : ℤ) : ℚ) + (xi : ℚ))

/-- Modelled from the spec: ray casting with the exact crossing count
(odd number of crossings ⇒ inside), false for fewer than 3 points. -/
def point_in_polygon_spec (x y : Int) (pts : List PointI) : Bool :=
  if pts.length < 3 then false
  else decide ((List.countP (ray_cast_cond_exact x y pts) (List.range pts.length)) % 2 = 1)

theorem parity_toggle (c : Nat) :
    decide ((c + 1) % 2 = 1) = !decide (c % 2 = 1) := by
  rcases Nat.mod_two_eq_zero_or_one c with h | h <;> simp [Nat.add_mod, h]

/-- The fold inside `point_in_polygon` computes the parity of the
per-edge conditions, with the previous-vertex index threaded in the
state. -/
theorem pip_fold_eq (x y : Int) (pts : List PointI) :
    ∀ m : Nat,
      (List.range m).foldl
        (fun (st : Bool × Nat) i =>
          let (inside, j) := st
          let (xi, yi) := pts.getD i (0, 0)
          let (xj, yj) := pts.getD j (0, 0)
          let inside :=
            if (decide (yi > y) != decide (yj > y))
                && decide (x < ((xj - xi) * (y - yi)).fdiv (yj - yi) + xi)
            then !inside else inside
          (inside, i))
        (false, pts.length - 1) =
      (decide ((List.countP (pip_edge_cond x y pts) (List.range m)) % 2 = 1),
       if m = 0 then pts.length - 1 else m - 1) := by
  intro m
  induction m with
  | zero => simp
  | succ m ih =>
    rw [List.range_succ, List.foldl_append, ih, List.countP_append]
    simp only [List.foldl_cons, List.foldl_nil, List.countP_cons,
      List.countP_nil, Nat.zero_add]
    cases hc : pip_edge_cond x y pts m with
    | false =>
      simp only [pip_edge_cond, Bool.and_eq_true, decide_eq_true_eq] at hc
      by_cases hm : m = 0 <;>
        simp_all [pip_edge_cond, hc]
    | true =>
      simp only [pip_edge_cond] at hc
      by_cases hm : m = 0 <;>
        simp_all [pip_edge_cond, hc, parity_toggle]

/-- `point_in_polygon` is the parity of the per-edge conditions. -/
theorem point_in_polygon_eq_parity (x y : Int) (pts : List PointI)
    (h3 : ¬pts.length < 3) :
    point_in_polygon x y pts =
      decide ((List.countP (pip_edge_cond x y pts) (List.range pts.length)) % 2 = 1) := by
  unfold point_in_polygon
  rw [if_neg h3, pip_fold_eq x y pts pts.length]

/-- One edge's floor-division condition agrees with the exact strict
ray-crossing condition as long as the exact crossing abscissa does not
lie strictly between `x` and `x + 1`. -/
theorem edge_cond_exact_of_no_gap (x y : Int) (pts : List PointI) (i : Nat)
    (hgap :
      (let n := pts.length
       let j := if i = 0 then n - 1 else i - 1
       let xi := (pts.getD i (0, 0)).1
       let yi := (pts.getD i (0, 0)).2
       let xj := (pts.getD j (0, 0)).1
       let yj := (pts.getD j (0, 0)).2
       ((yi > y) ≠ (yj > y)) →
         ¬((x : ℚ) < (((xj - xi) * (y - yi) : ℤ) : ℚ) / ((yj - yi : ℤ) : ℚ) + (xi : ℚ) ∧
           (((xj - xi) * (y - yi) : ℤ) : ℚ) / ((yj - yi : ℤ) : ℚ) + (xi : ℚ) < (x : ℚ) + 1))) :
    pip_edge_cond x y pts i = ray_cast_cond_exact x y pts i := by
  simp only [pip_edge_cond, ray_cast_cond_exact] at *
  by_cases hstraddle :
      (decide ((pts.getD i (0, 0)).2 > y) !=
        decide ((pts.getD (if i = 0 then pts.length - 1 else i - 1) (0, 0)).2 > y)) = true
  · rw [hstraddle]
    simp only [Bool.true_and]
    have hgap2 := hgap (by
      rcases Bool.xor_iff_ne.mp hstraddle with h
      simpa [decide_eq_decide] using h)
    set xi := (pts.getD i (0, 0)).1
    set yi := (pts.getD i (0, 0)).2
    set xj := (pts.getD (if i = 0 then pts.length - 1 else i - 1) (0, 0)).1
    set yj := (pts.getD (if i = 0 then pts.length - 1 else i - 1) (0, 0)).2
    have hcode : x < ((xj - xi) * (y - yi)).fdiv (yj - yi) + xi ↔
        ((x - xi : ℤ) : ℚ) + 1 ≤ (((xj - xi) * (y - yi) : ℤ) : ℚ) / ((yj - yi : ℤ) : ℚ) := by
      rw [show (x < ((xj - xi) * (y - yi)).fdiv (yj - yi) + xi) ↔
          (x - xi < ((xj - xi) * (y - yi)).fdiv (yj - yi)) from by omega]
      exact lt_fdiv_iff (x - xi) ((xj - xi) * (y - yi)) (yj - yi)
    rw [decide_eq_decide, hcode]
    push_cast at hgap2 ⊢
    constructor
    · intro h
      linarith
    · intro h
      by_contra hlt
      push_neg at hlt
      exact hgap2 ⟨by linarith, by linarith⟩
  · rw [Bool.not_eq_true] at hstraddle
    rw [hstraddle]
    simp

/-- C8 (amended): `point_in_polygon` returns false for polygons with
fewer than 3 points; otherwise it computes the ray-casting crossing
parity where each edge's crossing abscissa is interpolated with floor
division (`⌊(xj−xi)(y−yi)/(yj−yi)⌋ + xi`) and compared with strict
less-than.  This agrees with the exact-crossing ray cast whenever no
straddling edge's exact crossing abscissa lies strictly between `x` and
`x + 1`; when one does, the two can disagree (see the counterexample). -/
theorem point_in_polygon_ray_casting (x y : Int) (pts : List PointI) :
    (pts.length < 3 → point_in_polygon x y pts = false) ∧
    ((∀ i, i < pts.length →
      (let n := pts.length
       let j := if i = 0 then n - 1 else i - 1
       let xi := (pts.getD i (0, 0)).1
       let yi := (pts.getD i (0, 0)).2
       let xj := (pts.getD j (0, 0)).1
       let yj := (pts.getD j (0, 0)).2
       ((yi > y) ≠ (yj > y)) →
         ¬((x : ℚ) < (((xj - xi) * (y - yi) : ℤ) : ℚ) / ((yj - yi : ℤ) : ℚ) + (xi : ℚ) ∧
           (((xj - xi) * (y - yi) : ℤ) : ℚ) / ((yj - yi : ℤ) : ℚ) + (xi : ℚ) < (x : ℚ) + 1))) →
      point_in_polygon x y pts = point_in_polygon_spec x y pts) := by
  constructor
  · intro h
    unfold point_in_polygon
    rw [if_pos h]
  · intro hgap
    by_cases h3 : pts.length < 3
    · unfold point_in_polygon point_in_polygon_spec
      rw [if_pos h3, if_pos h3]
    · rw [point_in_polygon_eq_parity x y pts h3]
      unfold point_in_polygon_spec
      rw [if_neg h3]
      have hcount : List.countP (pip_edge_cond x y pts) (List.range pts.length) =
          List.countP (ray_cast_cond_exact x y pts) (List.range pts.length) := by
        apply List.countP_congr
        intro i hi
        rw [List.mem_range] at hi
        rw [edge_cond_exact_of_no_gap x y pts i (hgap i hi)]
      rw [hcount]

/-- C8 counterexample: for the triangle `(1,1), (2,3), (6,1)` and
`p = (1,2)` the floor-division interpolation turns the exact crossing
abscissa 1.5 of the left edge into 1, so the strict comparison `1 < 1`
misses that crossing: the code reports the outside point as inside,
while the exact ray-casting crossing count (2 crossings, even) says
outside. -/
theorem point_in_polygon_fdiv_counterexample :
    point_in_polygon 1 2 [(1, 1), (2, 3), (6, 1)] = true ∧
    point_in_polygon_spec 1 2 [(1, 1), (2, 3), (6, 1)] = false := by
  constructor
  · decide
  · have h0 : ray_cast_cond_exact 1 2 [(1, 1), (2, 3), (6, 1)] 0 = false := by
      norm_num [ray_cast_cond_exact]
    have h1 : ray_cast_cond_exact 1 2 [(1, 1), (2, 3), (6, 1)] 1 = true := by
      norm_num [ray_cast_cond_exact]
    have h2 : ray_cast_cond_exact 1 2 [(1, 1), (2, 3), (6, 1)] 2 = true := by
      norm_num [ray_cast_cond_exact]
    rw [point_in_polygon_spec, if_neg (by norm_num),
      show List.range ([((1 : Int), (1 : Int)), (2, 3), (6, 1)].length) = [0, 1, 2] from rfl]
    simp only [List.countP_cons, List.countP_nil, h0, h1, h2]
    norm_num

/-- C8 witness: on the axis-aligned square `(0,0)-(10,10)` with
`p = (5,5)` every straddling edge has an integral crossing abscissa, the
no-gap hypothesis holds, and the code agrees with the exact ray cast;
the short-polygon clause is applied to a 2-point polygon. -/
theorem point_in_polygon_ray_casting_witness :
    point_in_polygon 5 5 [(0, 0), (10, 0), (10, 10), (0, 10)] =
      point_in_polygon_spec 5 5 [(0, 0), (10, 0), (10, 10), (0, 10)] ∧
    point_in_polygon 5 5 [(0, 0), (10, 0)] = false := by
  constructor
  · apply (point_in_polygon_ray_casting 5 5 [(0, 0), (10, 0), (10, 10), (0, 10)]).2
    intro i hi
    simp only [List.length_cons, List.length_nil] at hi
    interval_cases i <;> norm_num
  · exact (point_in_polygon_ray_casting 5 5 [(0, 0), (10, 0)]).1 (by norm_num)

/-! ## C5: offset-path point count -/

theorem length_filterMap_eq {α β : Type} (f : α → Option β) (l : List α)
    (h : ∀ a ∈ l, (f a).isSome) : (l.filterMap f).length = l.length := by
  induction l with
  | nil => rfl
  | cons a t ih =>
    have ha := h a (List.mem_cons_self a t)
    rw [List.filterMap_cons]
    cases hfa : f a with
    | none => rw [hfa] at ha; simp at ha
    | some b =>
      simp only [List.length_cons]
      rw [ih (fun x hx => h x (List.mem_cons_of_mem a hx))]

theorem sqrt_sum_sq_eq_zero_iff (a b : ℝ) :
    Real.sqrt (a * a + b * b) = 0 ↔ a = 0 ∧ b = 0 := by
  rw [Real.sqrt_eq_zero (by nlinarith [mul_self_nonneg a, mul_self_nonneg b])]
  constructor
  · intro h
    constructor <;> nlinarith [sq_nonneg a, sq_nonneg b]
  · rintro ⟨rfl, rfl⟩
    ring

/-- C5 (amended): for a polyline with at least 2 points the offset path
has AT MOST as many points as the input, with equality exactly when no
vertex's averaged direction vector vanishes (the
`if length == 0: continue` skip); duplicate consecutive endpoints or an
exact 180° reversal at an interior vertex drop that vertex from the
output — see the counterexample. -/
theorem generate_offset_path_count (path : List PointI) (offset side : Int)
    (h2 : 2 ≤ path.length) :
    (generate_offset_path path offset side).length ≤ path.length ∧
    ((∀ i, i < path.length → offset_dir path i ≠ (0, 0)) →
      (generate_offset_path path offset side).length = path.length) := by
  constructor
  · unfold generate_offset_path
    rw [if_neg (by omega)]
    calc (List.filterMap _ (List.range path.length)).length
        ≤ (List.range path.length).length := List.length_filterMap_le _ _
      _ = path.length := List.length_range _
  · intro hall
    unfold generate_offset_path
    rw [if_neg (by omega)]
    rw [length_filterMap_eq _ _ ?_, List.length_range]
    intro i hi
    rw [List.mem_range] at hi
    have hd := hall i hi
    have hne : Real.sqrt ((offset_dir path i).1 * (offset_dir path i).1 +
        (offset_dir path i).2 * (offset_dir path i).2) ≠ 0 := by
      rw [ne_eq, sqrt_sum_sq_eq_zero_iff]
      intro ⟨ha, hb⟩
      exact hd (Prod.ext ha hb)
    simp [hne]

/-- C5 counterexample: the 3-point polyline `(5,5), (6,5), (5,5)`
(a doubled-back trace) yields only 2 offset points for offset 1, side 1:
at the middle vertex the two normalized directions cancel and the vertex
is skipped, so the output does NOT have as many points as the input. -/
theorem generate_offset_path_count_counterexample :
    (generate_offset_path [(5, 5), (6, 5), (5, 5)] 1 1).length = 2 ∧
    ([(5, 5), (6, 5), (5, 5)] : List PointI).length = 3 ∧ (2 : Nat) ≠ 3 := by
  refine ⟨?_, by norm_num, by norm_num⟩
  have hd0 : offset_dir [(5, 5), (6, 5), (5, 5)] 0 = (1, 0) := by
    norm_num [offset_dir]
  have hd1 : offset_dir [(5, 5), (6, 5), (5, 5)] 1 = (0, 0) := by
    norm_num [offset_dir, Real.sqrt_one]
  have hd2 : offset_dir [(5, 5), (6, 5), (5, 5)] 2 = (-1, 0) := by
    norm_num [offset_dir]
  rw [generate_offset_path, if_neg (by norm_num),
    show List.range ([((5 : Int), (5 : Int)), (6, 5), (5, 5)].length) = [0, 1, 2] from rfl]
  simp only [List.filterMap_cons, List.filterMap_nil, hd0, hd1, hd2]
  norm_num [Real.sqrt_one, Real.sqrt_zero]

/-- C5 witness: a straight 2-point polyline keeps both its points. -/
theorem generate_offset_path_count_witness :
    2 ≤ ([(5, 5), (1000005, 5)] : List PointI).length ∧
    (generate_offset_path [(5, 5), (1000005, 5)] 500000 1).length =
      ([(5, 5), (1000005, 5)] : List PointI).length := by
  refine ⟨by norm_num, ?_⟩
  apply (generate_offset_path_count [(5, 5), (1000005, 5)] 500000 1 (by norm_num)).2
  intro i hi
  simp only [List.length_cons, List.length_nil] at hi
  interval_cases i <;> norm_num [offset_dir, Prod.ext_iff]

/-! ## C1: the result accounting invariant -/

/-- The numeric contribution of a reason-map value: a rejection counter
contributes itself, a guard-failure message is not a number. -/
def rval_count : RVal → Nat
  | .count n => n
  | .msg _ => 0

/-- Sum of the numeric count values of a reason map. -/
def reasons_count_sum (m : List (String × RVal)) : Nat :=
  (m.map (fun e => rval_count e.2)).sum

/-- Whether every value of the reason map is a numeric counter (which the
claim's phrase "the sum of the values" presupposes). -/
def reasons_all_counts (m : List (String × RVal)) : Bool :=
  m.all (fun e => match e.2 with | .count _ => true | .msg _ => false)

theorem bump_reason_sum (m : List (String × RVal)) (k : String) :
    reasons_count_sum (bump_reason m k) = reasons_count_sum m + 1 := by
  induction m with
  | nil => simp [bump_reason, reasons_count_sum, rval_count]
  | cons e rest ih =>
    obtain ⟨k2, v⟩ := e
    simp only [bump_reason]
    by_cases h : k2 = k
    · rw [if_pos h]
      cases v <;> simp [reasons_count_sum, rval_count] <;> omega
    · rw [if_neg h]
      simp only [reasons_count_sum, List.map_cons, List.sum_cons] at *
      omega

/-- Accounting through the shared accumulation loop: each processed check
result adds one to `valid + rejected`, leaves `candidates` unchanged, and
adds to the numeric reason counters exactly what it adds to `rejected`. -/
theorem process_check_results_spec (mk : Int → Int → ViaOut)
    (results : List (Int × Int × Bool × String)) :
    ∀ acc : StitchingResult,
      ((process_check_results mk results acc).valid +
          (process_check_results mk results acc).rejected =
        acc.valid + acc.rejected + results.length) ∧
      (process_check_results mk results acc).candidates = acc.candidates ∧
      (reasons_count_sum (process_check_results mk results acc).rejected_reasons +
          acc.rejected =
        reasons_count_sum acc.rejected_reasons +
          (process_check_results mk results acc).rejected) := by
  induction results with
  | nil => intro acc; simp [process_check_results]
  | cons cr rest ih =>
    intro acc
    simp only [process_check_results, List.foldl_cons] at ih ⊢
    by_cases h : cr.2.2.1 = true
    · rw [if_pos h] at *
      obtain ⟨ha, hb, hc⟩ :=
        ih { acc with vias := acc.vias ++ [mk cr.1 cr.2.1], valid := acc.valid + 1 }
      refine ⟨by simp at ha ⊢; omega, by simpa using hb, by simp at hc ⊢; omega⟩
    · rw [if_neg h] at *
      obtain ⟨ha, hb, hc⟩ :=
        ih { acc with rejected := acc.rejected + 1,
                      rejected_reasons := bump_reason acc.rejected_reasons cr.2.2.2 }
      have hbump := bump_reason_sum acc.rejected_reasons cr.2.2.2
      refine ⟨by simp at ha ⊢; omega, by simpa using hb, by simp at hc ⊢; omega⟩

/-- The accounting invariant of a finished result. -/
def result_ok (r : StitchingResult) : Prop :=
  r.valid + r.rejected = r.candidates ∧
  reasons_count_sum r.rejected_reasons = r.rejected

theorem generate_trace_fencing_ok (board : Board) (config : StitchingConfig)
    (selected_tracks : Option (List Track)) :
    result_ok (generate_trace_fencing board config selected_tracks) := by
  simp only [generate_trace_fencing]
  split
  · exact ⟨rfl, rfl⟩
  · split
    · exact ⟨rfl, rfl⟩
    · split
      · exact ⟨rfl, rfl⟩
      · split
        · exact ⟨rfl, rfl⟩
        · rename_i tracks _
          obtain ⟨ha, hb, hc⟩ := process_check_results_spec
            (mk_via config _)
            (check_positions_batch
              (generate_path_fence_positions tracks config.fence_spacing_nm
                config.fence_offset_nm config.fence_both_sides)
              (config.via_diameter_nm.fdiv 2) config.net_names config.clearance_nm
              same_net_clearance_nm config.boundary_clearance_nm
              (extract_board_data board config.board_corner_radius_nm) true none)
            { tracks_found := tracks.length,
              candidates := (generate_path_fence_positions tracks
                config.fence_spacing_nm config.fence_offset_nm
                config.fence_both_sides).length }
          constructor
          · rw [ha, hb]
            simp [check_positions_batch, reasons_count_sum]
          · simp only [reasons_count_sum] at hc ⊢
            simp only [List.map_nil, List.sum_nil] at hc
            simp at hc
            omega

/-- Accounting through a single polygon step: candidates grow by the
number of positions, then exactly that many check results are folded. -/
theorem process_step_ok (mk : Int → Int → ViaOut) (positions : List PointI)
    (vr : Int) (tn : List String) (c snc bc : Int) (bd : BoardData)
    (ifm : Bool) (pp : Option (List PointI)) (r : StitchingResult)
    (hr : result_ok r) :
    result_ok (process_check_results mk
      (check_positions_batch positions vr tn c snc bc bd ifm pp)
      { r with candidates := r.candidates + positions.length }) := by
  obtain ⟨h1, h2⟩ := hr
  obtain ⟨ha, hb, hc⟩ := process_check_results_spec mk
    (check_positions_batch positions vr tn c snc bc bd ifm pp)
    { r with candidates := r.candidates + positions.length }
  constructor
  · rw [ha, hb]
    simp only [check_positions_batch, List.length_map]
    simp
    omega
  · simp at hc
    omega

theorem generate_via_stitching_ok (board : Board) (config : StitchingConfig)
    (selected_zones : Option (List Zone)) (selected_tracks : Option (List Track))
    (jit : Nat → Nat → Nat → Nat → Int × Int) :
    result_ok (generate_via_stitching board config selected_zones selected_tracks jit) := by
  simp only [generate_via_stitching]
  split
  · exact generate_trace_fencing_ok board config selected_tracks
  · split
    · exact ⟨rfl, rfl⟩
    · split
      · split
        · exact ⟨rfl, rfl⟩
        · apply foldl_preserves
          · intro r zz hr
            split
            · exact hr
            · apply foldl_preserves
              · intro r2 pp2 hr2
                split
                · exact hr2
                · exact process_step_ok _ _ _ _ _ _ _ _ _ _ r2 hr2
              · exact hr
          · exact ⟨rfl, rfl⟩
      · split
        · exact ⟨rfl, rfl⟩
        · apply foldl_preserves
          · intro r zz hr
            split
            · exact hr
            · apply foldl_preserves
              · intro r2 pp2 hr2
                split
                · exact hr2
                · exact process_step_ok _ _ _ _ _ _ _ _ _ _ r2 hr2
              · exact hr
          · exact ⟨rfl, rfl⟩

/-- C1 (amended): for every stitching run — any mode, board snapshot,
configuration, selection and jitter draws — the returned result
satisfies `valid + rejected = candidates`, and the NUMERIC count values
of `rejected_reasons` sum to `rejected`.  (Runs that fail the
net/zone/track-resolution guards store a single string message in the
reason map, not a number — see the counterexample — and contribute no
counts, with `rejected = 0`.) -/
theorem stitching_result_invariant (board : Board) (config : StitchingConfig)
    (selected_zones : Option (List Zone)) (selected_tracks : Option (List Track))
    (jit : Nat → Nat → Nat → Nat → Int × Int) :
    (generate_via_stitching board config selected_zones selected_tracks jit).valid +
        (generate_via_stitching board config selected_zones selected_tracks jit).rejected =
      (generate_via_stitching board config selected_zones selected_tracks jit).candidates ∧
    reasons_count_sum
        (generate_via_stitching board config selected_zones selected_tracks jit).rejected_reasons =
      (generate_via_stitching board config selected_zones selected_tracks jit).rejected :=
  generate_via_stitching_ok board config selected_zones selected_tracks jit

/-- C1 counterexample: a fill run on a board with no matching net stores
the string message `"No matching nets found"` as the only value of
`rejected_reasons`; the claim's "sum of the values in rejected_reasons"
is then not a sum of numbers at all (`reasons_all_counts` is false), so
the claim as stated fails for guard-failure runs. -/
theorem stitching_reason_msg_counterexample :
    (generate_via_stitching ⟨[], [], [], [], [], [], []⟩
      ⟨["GND"], 600000, 300000, 2000000, true, 200000, 300000, false, 200000,
        StitchMode.fill, 1000000, 500000, true, false, ViaType.through,
        none, none, 0⟩ none none (fun _ _ _ _ => (0, 0))).rejected_reasons =
      [("no_nets", RVal.msg "No matching nets found")] ∧
    reasons_all_counts (generate_via_stitching ⟨[], [], [], [], [], [], []⟩
      ⟨["GND"], 600000, 300000, 2000000, true, 200000, 300000, false, 200000,
        StitchMode.fill, 1000000, 500000, true, false, ViaType.through,
        none, none, 0⟩ none none (fun _ _ _ _ => (0, 0))).rejected_reasons = false :=
  ⟨rfl, rfl⟩


/-! ## C7: the chainer consumes each segment exactly once -/

theorem getD_set_self (l : List Bool) (j : Nat) (h : j < l.length) :
    (l.set j true).getD j false = true := by
  simp [List.getD_eq_getElem?_getD, List.getElem?_set_self h]

theorem getD_set_ne (l : List Bool) (i j : Nat) (h : j ≠ i) :
    (l.set j true).getD i false = l.getD i false := by
  simp [List.getD_eq_getElem?_getD, List.getElem?_set_ne h]

theorem getD_true_lt (l : List Bool) (j : Nat) (h : l.getD j true = false) :
    j < l.length := by
  by_contra hge
  rw [List.getD_eq_getElem?_getD, List.getElem?_eq_none (by omega)] at h
  simp at h

theorem getD_false_of_true_false (l : List Bool) (j : Nat)
    (h : l.getD j true = false) : l.getD j false = false := by
  have hj := getD_true_lt l j h
  rw [List.getD_eq_getElem?_getD, List.getElem?_eq_getElem hj] at h ⊢
  exact h

def paths_count (paths : List (List PointI × List Nat)) (k : Nat) : Nat :=
  ((paths.map (fun p => p.2)).flatten).count k

def inner_inv (n : Nat) (c : Nat → Nat)
    (st : (List PointI × List Nat) × List Bool × Bool) : Prop :=
  st.2.1.length = n ∧
  ∀ k, k < n → c k + st.1.2.count k = (if st.2.1.getD k false then 1 else 0)

theorem chain_merge_step_inv (segments : List (List PointI)) {n : Nat}
    (c : Nat → Nat)
    (st : (List PointI × List Nat) × List Bool × Bool) (j : Nat)
    (h : inner_inv n c st) :
    inner_inv n c (chain_merge_step segments st j) := by
  obtain ⟨hlen, hcnt⟩ := h
  simp only [chain_merge_step]
  by_cases hj : st.2.1.getD j true
  · rw [if_pos hj]; exact ⟨hlen, hcnt⟩
  · rw [if_neg hj]
    rw [Bool.not_eq_true] at hj
    have hjlt : j < n := hlen ▸ getD_true_lt _ _ hj
    have hkey : ∀ path2 : List PointI,
        inner_inv n c ((path2, j :: st.1.2), st.2.1.set j true, true) := by
      intro path2
      refine ⟨by simp [hlen], fun k hk => ?_⟩
      by_cases hkj : k = j
      · subst hkj
        have h0 := hcnt k hk
        rw [getD_false_of_true_false _ _ hj] at h0
        simp only [Bool.false_eq_true, if_false] at h0
        rw [getD_set_self _ _ (by omega), List.count_cons_self, if_pos rfl]
        omega
      · rw [List.count_cons_of_ne (by omega), getD_set_ne _ _ _ (fun hh => hkj hh.symm)]
        exact hcnt k hk
    split
    · exact hkey _
    · split
      · exact hkey _
      · split
        · exact hkey _
        · split
          · exact hkey _
          · exact ⟨hlen, hcnt⟩

theorem chain_pass_inv (segments : List (List PointI)) {n : Nat} (c : Nat → Nat)
    (path : List PointI × List Nat) (used : List Bool)
    (h : inner_inv n c (path, used, false)) :
    inner_inv n c (chain_pass segments path used) := by
  unfold chain_pass
  exact foldl_preserves (fun st j hst => chain_merge_step_inv segments c st j hst) _ _ h

theorem inner_inv_flag (n : Nat) (c : Nat → Nat)
    (path : List PointI × List Nat) (used : List Bool) (b b2 : Bool)
    (h : inner_inv n c (path, used, b)) : inner_inv n c (path, used, b2) := h

theorem chain_extend_inv (segments : List (List PointI)) {n : Nat} (c : Nat → Nat) :
    ∀ (fuel : Nat) (path : List PointI × List Nat) (used : List Bool),
      inner_inv n c (path, used, false) →
      inner_inv n c ((chain_extend segments fuel path used).1,
        (chain_extend segments fuel path used).2, false) := by
  intro fuel
  induction fuel with
  | zero => intro path used h; exact h
  | succ m ih =>
    intro path used h
    have hp := chain_pass_inv segments c path used h
    simp only [chain_extend]
    split
    · exact ih _ _ (inner_inv_flag _ _ _ _ _ _ hp)
    · exact inner_inv_flag _ _ _ _ _ _ hp

theorem set_getD_mono (l : List Bool) (j k : Nat)
    (h : l.getD k false = true) : (l.set j true).getD k false = true := by
  by_cases hkj : j = k
  · subst hkj
    have : j < l.length := by
      by_contra hge
      rw [List.getD_eq_getElem?_getD, List.getElem?_eq_none (by omega)] at h
      simp at h
    exact getD_set_self _ _ this
  · rw [getD_set_ne _ _ _ hkj]
    exact h

theorem chain_merge_step_mono (segments : List (List PointI))
    (st : (List PointI × List Nat) × List Bool × Bool) (j k : Nat)
    (h : st.2.1.getD k false = true) :
    (chain_merge_step segments st j).2.1.getD k false = true := by
  simp only [chain_merge_step]
  split
  · exact h
  · split
    · exact set_getD_mono _ _ _ h
    · split
      · exact set_getD_mono _ _ _ h
      · split
        · exact set_getD_mono _ _ _ h
        · split
          · exact set_getD_mono _ _ _ h
          · exact h

theorem chain_pass_mono (segments : List (List PointI))
    (path : List PointI × List Nat) (used : List Bool) (k : Nat)
    (h : used.getD k false = true) :
    (chain_pass segments path used).2.1.getD k false = true := by
  unfold chain_pass
  have : ∀ (l : List Nat) (st : (List PointI × List Nat) × List Bool × Bool),
      st.2.1.getD k false = true →
      (l.foldl (chain_merge_step segments) st).2.1.getD k false = true := by
    intro l
    induction l with
    | nil => intro st hst; exact hst
    | cons a t ih =>
      intro st hst
      exact ih _ (chain_merge_step_mono segments st a k hst)
  exact this _ _ h

theorem chain_extend_mono (segments : List (List PointI)) :
    ∀ (fuel : Nat) (path : List PointI × List Nat) (used : List Bool) (k : Nat),
      used.getD k false = true →
      (chain_extend segments fuel path used).2.getD k false = true := by
  intro fuel
  induction fuel with
  | zero => intro path used k h; exact h
  | succ m ih =>
    intro path used k h
    simp only [chain_extend]
    split
    · exact ih _ _ _ (chain_pass_mono segments path used k h)
    · exact chain_pass_mono segments path used k h

theorem chain_merge_step_used_len (segments : List (List PointI))
    (st : (List PointI × List Nat) × List Bool × Bool) (j : Nat) :
    (chain_merge_step segments st j).2.1.length = st.2.1.length := by
  simp only [chain_merge_step]
  split
  · rfl
  · split
    · exact List.length_set _ _ _
    · split
      · exact List.length_set _ _ _
      · split
        · exact List.length_set _ _ _
        · split
          · exact List.length_set _ _ _
          · rfl

theorem chain_pass_used_len (segments : List (List PointI))
    (path : List PointI × List Nat) (used : List Bool) :
    (chain_pass segments path used).2.1.length = used.length := by
  unfold chain_pass
  have : ∀ (l : List Nat) (st : (List PointI × List Nat) × List Bool × Bool),
      (l.foldl (chain_merge_step segments) st).2.1.length = st.2.1.length := by
    intro l
    induction l with
    | nil => intro st; rfl
    | cons a t ih =>
      intro st
      rw [List.foldl_cons, ih, chain_merge_step_used_len]
  exact this _ _

theorem chain_extend_used_len (segments : List (List PointI)) :
    ∀ (fuel : Nat) (path : List PointI × List Nat) (used : List Bool),
      (chain_extend segments fuel path used).2.length = used.length := by
  intro fuel
  induction fuel with
  | zero => intro path used; rfl
  | succ m ih =>
    intro path used
    simp only [chain_extend]
    split
    · rw [ih, chain_pass_used_len]
    · exact chain_pass_used_len segments path used

def outer_inv (n : Nat) (st : List (List PointI × List Nat) × List Bool) : Prop :=
  st.2.length = n ∧
  ∀ k, k < n → paths_count st.1 k = (if st.2.getD k false then 1 else 0)

theorem paths_count_append (paths : List (List PointI × List Nat))
    (p : List PointI × List Nat) (k : Nat) :
    paths_count (paths ++ [p]) k = paths_count paths k + p.2.count k := by
  simp [paths_count, List.count_append]

theorem chain_outer_step_inv (segments : List (List PointI)) {n : Nat}
    (st : List (List PointI × List Nat) × List Bool) (i : Nat)
    (h : outer_inv n st) : outer_inv n (chain_outer_step segments st i) := by
  obtain ⟨hlen, hcnt⟩ := h
  simp only [chain_outer_step]
  split
  · exact ⟨hlen, hcnt⟩
  · rename_i hused
    rw [Bool.not_eq_true] at hused
    have hilt : i < n := hlen ▸ getD_true_lt _ _ hused
    have hstart : inner_inv n (paths_count st.1)
        ((segments.getD i [], [i]), st.2.set i true, false) := by
      refine ⟨by simp [hlen], fun k hk => ?_⟩
      by_cases hki : k = i
      · subst hki
        have h0 := hcnt k hk
        rw [getD_false_of_true_false _ _ hused] at h0
        simp only [Bool.false_eq_true, if_false] at h0
        rw [getD_set_self _ _ (by omega)]
        simp [h0]
      · rw [getD_set_ne _ _ _ (fun hh => hki hh.symm)]
        have : List.count k [i] = 0 := by
          simp [List.count_singleton]
          omega
        rw [this, Nat.add_zero]
        have h0 := hcnt k hk
        simpa using h0
    have hfin := chain_extend_inv segments (paths_count st.1) segments.length _ _ hstart
    obtain ⟨hflen, hfcnt⟩ := hfin
    refine ⟨hflen, fun k hk => ?_⟩
    rw [paths_count_append]
    exact hfcnt k hk

theorem chain_outer_step_used_len (segments : List (List PointI))
    (st : List (List PointI × List Nat) × List Bool) (i : Nat) :
    (chain_outer_step segments st i).2.length = st.2.length := by
  simp only [chain_outer_step]
  split
  · rfl
  · rw [chain_extend_used_len, List.length_set]

theorem chain_outer_step_mono (segments : List (List PointI))
    (st : List (List PointI × List Nat) × List Bool) (i k : Nat)
    (h : st.2.getD k false = true) :
    (chain_outer_step segments st i).2.getD k false = true := by
  simp only [chain_outer_step]
  split
  · exact h
  · exact chain_extend_mono segments _ _ _ _ (set_getD_mono _ _ _ h)

theorem chain_outer_step_sets (segments : List (List PointI))
    (st : List (List PointI × List Nat) × List Bool) (i : Nat)
    (hi : i < st.2.length) :
    (chain_outer_step segments st i).2.getD i false = true := by
  simp only [chain_outer_step]
  split
  · rename_i hused
    rw [List.getD_eq_getElem?_getD, List.getElem?_eq_getElem hi] at hused ⊢
    exact hused
  · exact chain_extend_mono segments _ _ _ _ (getD_set_self _ _ hi)

theorem chain_fold_used (segments : List (List PointI)) :
    ∀ (l : List Nat) (st : List (List PointI × List Nat) × List Bool) (k : Nat),
      k ∈ l → k < st.2.length →
      ((l.foldl (chain_outer_step segments) st).2.getD k false = true) := by
  intro l
  induction l with
  | nil => intro st k hk; exact absurd hk (List.not_mem_nil k)
  | cons a t ih =>
    intro st k hk hklen
    rw [List.foldl_cons]
    rcases List.mem_cons.mp hk with h | h
    · subst h
      have hset := chain_outer_step_sets segments st k hklen
      have : ∀ (l2 : List Nat) (st2 : List (List PointI × List Nat) × List Bool),
          st2.2.getD k false = true →
          ((l2.foldl (chain_outer_step segments) st2).2.getD k false = true) := by
        intro l2
        induction l2 with
        | nil => intro st2 h2; exact h2
        | cons b t2 ih2 =>
          intro st2 h2
          exact ih2 _ (chain_outer_step_mono segments st2 b k h2)
      exact this t _ hset
    · exact ih _ k h (by rw [chain_outer_step_used_len]; omega)

theorem replicate_getD_false (n k : Nat) :
    (List.replicate n false).getD k false = false := by
  rw [List.getD_eq_getElem?_getD]
  by_cases h : k < n
  · rw [List.getElem?_eq_getElem (by simpa using h)]
    simp
  · rw [List.getElem?_eq_none (by simpa using h)]
    rfl

theorem chain_core_partition (segments : List (List PointI)) :
    ∀ k, k < segments.length → paths_count (chain_core segments) k = 1 := by
  intro k hk
  have hinv : outer_inv segments.length
      ((List.range segments.length).foldl (chain_outer_step segments)
        ([], List.replicate segments.length false)) := by
    apply foldl_preserves
    · intro st i hst
      exact chain_outer_step_inv segments st i hst
    · refine ⟨by simp, fun k2 hk2 => ?_⟩
      rw [replicate_getD_false]
      simp [paths_count]
  obtain ⟨hlen, hcnt⟩ := hinv
  have hused := chain_fold_used segments (List.range segments.length)
    ([], List.replicate segments.length false) k (List.mem_range.mpr hk)
    (by simpa using hk)
  have := hcnt k hk
  rw [hused, if_pos rfl] at this
  exact this

/-- C7: the chaining loop partitions its input: the plain output is the
instrumented output with the consumed-index lists erased, and every input
segment index `k` occurs exactly once across all output path index
lists — no segment is dropped and none is merged into two polylines. -/
theorem chain_each_segment_once (segments : List (List PointI)) :
    chain_segments_into_paths segments = (chain_core segments).map (fun p => p.1) ∧
    ∀ k, k < segments.length →
      (((chain_core segments).map (fun p => p.2)).flatten).count k = 1 :=
  ⟨rfl, fun k hk => chain_core_partition segments k hk⟩

/-- C7 witness: two joinable segments are chained with indices 0 and 1
each consumed exactly once. -/
theorem chain_each_segment_once_witness :
    (0 < ([[(0, 0), (1000000, 0)], [(2000000, 0), (1000000, 0)]] : List (List PointI)).length) ∧
    (((chain_core [[(0, 0), (1000000, 0)], [(2000000, 0), (1000000, 0)]]).map
        (fun p => p.2)).flatten).count 0 = 1 ∧
    (((chain_core [[(0, 0), (1000000, 0)], [(2000000, 0), (1000000, 0)]]).map
        (fun p => p.2)).flatten).count 1 = 1 :=
  ⟨by decide,
   (chain_each_segment_once _).2 0 (by decide),
   (chain_each_segment_once _).2 1 (by decide)⟩
end ViaStitcher
